import Mathlib

/-! Skydive hub: the agent endpoint of the topology graph.

A verification development for `graffiti/hub/pod_endpoint.go`.

The endpoint (`TopologyAgentEndpoint`) receives structured messages from
agents and applies them to the shared graph (`*graph.Graph`).  Package `graph`
is a collaborator of the endpoint: the endpoint is embedded over an interface
`GraphStore` holding exactly the methods it calls, and every call it makes on
the graph is recorded in a trace, together with the lines it logs.

* `OnStructMessage`, `OnDisconnected`: the two handlers, for every store.
* `AddContract`, `OriginContract`, `FailureKeepsGraph`: what the handlers
  need from the store, in the words of the specification.
* `Graph`, `specStore`: the graph store of the specification, a store that
  meets these contracts.

Not embedded: nil node or edge pointers in a payload, the cache behind the
graph, and the interleaving of handler calls of several connections (each
handler call is one critical section of the graph lock, see `lockTrace`).
-/

namespace Hub

/-! ## Data model -/

/-- Go type `graph.Identifier`: the ID of a node or of an edge. -/
abbrev Identifier := String

/-- Modelled from the spec: the metadata payload of a node or edge
(`graph.Metadata` is declared in package `graph`), a list of key/value pairs. -/
abbrev Metadata := List (String × Int)

/-- Modelled from the spec: `graph.Node` (declared in package `graph`) with
the fields of the data model: identity, owning origin, metadata, revision. -/
structure Node where
  ID : Identifier
  Origin : String
  Metadata : Metadata
  Revision : Nat
deriving DecidableEq, Repr

/-- Modelled from the spec: `graph.Edge` (declared in package `graph`) with
the fields of the data model: identity, owning origin, parent and child node
IDs, metadata. -/
structure Edge where
  ID : Identifier
  Origin : String
  Parent : Identifier
  Child : Identifier
  Metadata : Metadata
deriving DecidableEq, Repr

/-- Go type `graph.SyncMsg`: the payload of a `Sync`/`SyncReply` message; the
endpoint reads its fields `Nodes` and `Edges`. -/
structure SyncMsg where
  Nodes : List Node
  Edges : List Edge
deriving DecidableEq, Repr

/-- A Go `error` value as the endpoint sees it. -/
inductive Error where
  | NotFound (id : Identifier)
  | Decode (reason : String)
  | Store (reason : String)
deriving DecidableEq, Repr

/-- Modelled from the spec: the message type constants of package `graph`
(`graph.SyncMsgType`, ...), the closed enumeration of message kinds.  `Other`
stands for a type string that is none of the nine constants the endpoint
switches on (the Go `switch` has no default case). -/
inductive MsgType where
  | OriginGraphDeletedMsgType
  | SyncMsgType
  | SyncReplyMsgType
  | NodeUpdatedMsgType
  | NodeDeletedMsgType
  | NodeAddedMsgType
  | EdgeUpdatedMsgType
  | EdgeDeletedMsgType
  | EdgeAddedMsgType
  | Other (name : String)
deriving DecidableEq, Repr

/-- Modelled from the spec: the string a message type constant stands for; it
is only used as an argument of a debug log line. -/
def MsgType.name : MsgType → String
  | .OriginGraphDeletedMsgType => "OriginGraphDeleted"
  | .SyncMsgType => "Sync"
  | .SyncReplyMsgType => "SyncReply"
  | .NodeUpdatedMsgType => "NodeUpdated"
  | .NodeDeletedMsgType => "NodeDeleted"
  | .NodeAddedMsgType => "NodeAdded"
  | .EdgeUpdatedMsgType => "EdgeUpdated"
  | .EdgeDeletedMsgType => "EdgeDeleted"
  | .EdgeAddedMsgType => "EdgeAdded"
  | .Other s => s

/-- The decoded payload `obj interface{}` returned by `graph.UnmarshalMessage`:
a dynamically typed value.  The endpoint narrows it with the type assertions
`obj.(string)`, `obj.(*graph.SyncMsg)`, `obj.(*graph.Node)` and
`obj.(*graph.Edge)`; an assertion on a value of another type panics. -/
inductive Obj where
  | str (s : String)
  | sync (r : SyncMsg)
  | node (n : Node)
  | edge (e : Edge)
  | other
deriving DecidableEq, Repr

/-- The part of `ws.Speaker` the endpoint reads: `GetRemoteHost()` and
`GetServiceType()`. -/
structure Speaker where
  GetRemoteHost : String
  GetServiceType : String
deriving DecidableEq, Repr

/-! ## The graph store interface and the trace of calls -/

/-- The methods of `*graph.Graph` that the endpoint calls, over a store state
`G`.  A mutating method returns the new state, and the Go `error` it returns
as an `Option`. `Lock`/`Unlock` do not change the state: they appear in the
trace only. -/
structure GraphStore (G : Type) where
  GetNode : G → Identifier → Option Node
  GetEdge : G → Identifier → Option Edge
  NodeAdded : G → Node → G × Option Error
  NodeUpdated : G → Node → G × Option Error
  NodeDeleted : G → Node → G × Option Error
  EdgeAdded : G → Edge → G × Option Error
  EdgeUpdated : G → Edge → G × Option Error
  EdgeDeleted : G → Edge → G × Option Error
  DelOriginGraph : G → String → G

/-- One call of the endpoint on `t.Graph`, with what the call returned
(`found`: the lookup returned non-nil; `err`: the returned error). -/
inductive Call where
  | Lock
  | Unlock
  | GetNode (id : Identifier) (found : Bool)
  | GetEdge (id : Identifier) (found : Bool)
  | NodeAdded (n : Node) (err : Option Error)
  | NodeUpdated (n : Node) (err : Option Error)
  | NodeDeleted (n : Node) (err : Option Error)
  | EdgeAdded (e : Edge) (err : Option Error)
  | EdgeUpdated (e : Edge) (err : Option Error)
  | EdgeDeleted (e : Edge) (err : Option Error)
  | DelOriginGraph (origin : String)
deriving DecidableEq, Repr

/-- The error a store call returned, if any. -/
def Call.err : Call → Option Error
  | .NodeAdded _ e => e
  | .NodeUpdated _ e => e
  | .NodeDeleted _ e => e
  | .EdgeAdded _ e => e
  | .EdgeUpdated _ e => e
  | .EdgeDeleted _ e => e
  | _ => none

/-- True for the two lock operations. -/
def Call.isLockOp : Call → Bool
  | .Lock => true
  | .Unlock => true
  | _ => false

/-- The ID a `GetNode` call looked up. -/
def Call.nodeLookup : Call → Option Identifier
  | .GetNode id _ => some id
  | _ => none

/-- The ID a `GetEdge` call looked up. -/
def Call.edgeLookup : Call → Option Identifier
  | .GetEdge id _ => some id
  | _ => none

/-- One line written through `logging.GetLogger()`: `Errorf(format, err)`,
`Error(err)` or `Debugf(format, args...)`. -/
inductive LogEntry where
  | Errorf (format : String) (err : Error)
  | Error (err : Error)
  | Debugf (format : String) (args : List String)
deriving DecidableEq, Repr

/-- True for the entries written at error level. -/
def LogEntry.isError : LogEntry → Bool
  | .Errorf _ _ => true
  | .Error _ => true
  | .Debugf _ _ => false

/-- The result of one handler call: the graph afterwards, the calls made on
the graph in order, the log lines written in order, and whether the handler
ended in a panic (a failed type assertion) instead of returning. -/
structure Outcome (G : Type) where
  Graph : G
  calls : List Call
  log : List LogEntry
  panicked : Bool

/-- What the `switch` of `OnStructMessage` leaves behind: the graph, the
calls and log lines of the branch, the value of the variable `err` after the
branch, and whether the branch panicked. -/
structure Branch (G : Type) where
  Graph : G
  calls : List Call
  log : List LogEntry
  err : Option Error
  panicked : Bool

/-! ## The endpoint -/

/-- The log lines of `if err != nil { logging.GetLogger().Error(err) }`. -/
def logError : Option Error → List LogEntry
  | some e => [.Error e]
  | none => []

/-- A branch whose type assertion failed: nothing was called or logged. -/
def Branch.panic {G : Type} (g : G) : Branch G :=
  { Graph := g, calls := [], log := [], err := none, panicked := true }

/-- Body of the loop `for _, n := range r.Nodes` of `OnStructMessage`:
`NodeAdded(n)` is called only when `GetNode(n.ID)` is nil, and its error is
logged on the spot (the `err` of the loop shadows the outer one). -/
def syncNode {G : Type} (S : GraphStore G) (st : Branch G) (n : Node) : Branch G :=
  match S.GetNode st.Graph n.ID with
  | some _ => { st with calls := st.calls ++ [.GetNode n.ID true] }
  | none =>
    let r := S.NodeAdded st.Graph n
    { st with
      Graph := r.1
      calls := st.calls ++ [.GetNode n.ID false, .NodeAdded n r.2]
      log := st.log ++ logError r.2 }

/-- Body of the loop `for _, e := range r.Edges` of `OnStructMessage`. -/
def syncEdge {G : Type} (S : GraphStore G) (st : Branch G) (e : Edge) : Branch G :=
  match S.GetEdge st.Graph e.ID with
  | some _ => { st with calls := st.calls ++ [.GetEdge e.ID true] }
  | none =>
    let r := S.EdgeAdded st.Graph e
    { st with
      Graph := r.1
      calls := st.calls ++ [.GetEdge e.ID false, .EdgeAdded e r.2]
      log := st.log ++ logError r.2 }

/-- The `switch msgType` of `OnStructMessage`, run on graph `g`. -/
def dispatch {G : Type} (S : GraphStore G) (g : G) (msgType : MsgType) (obj : Obj) :
    Branch G :=
  match msgType with
  | .OriginGraphDeletedMsgType =>
    match obj with
    | .str origin =>
      { Graph := S.DelOriginGraph g origin
        calls := [.DelOriginGraph origin]
        log := [.Debugf "Got %s message for host %s"
                  [MsgType.OriginGraphDeletedMsgType.name, origin]]
        err := none
        panicked := false }
    | _ => Branch.panic g
  | .SyncMsgType | .SyncReplyMsgType =>
    match obj with
    | .sync r =>
      r.Edges.foldl (syncEdge S)
        (r.Nodes.foldl (syncNode S)
          { Graph := g, calls := [], log := [], err := none, panicked := false })
    | _ => Branch.panic g
  | .NodeUpdatedMsgType =>
    match obj with
    | .node n =>
      let r := S.NodeUpdated g n
      { Graph := r.1, calls := [.NodeUpdated n r.2], log := [], err := r.2, panicked := false }
    | _ => Branch.panic g
  | .NodeDeletedMsgType =>
    match obj with
    | .node n =>
      let r := S.NodeDeleted g n
      { Graph := r.1, calls := [.NodeDeleted n r.2], log := [], err := r.2, panicked := false }
    | _ => Branch.panic g
  | .NodeAddedMsgType =>
    match obj with
    | .node n =>
      let r := S.NodeAdded g n
      { Graph := r.1, calls := [.NodeAdded n r.2], log := [], err := r.2, panicked := false }
    | _ => Branch.panic g
  | .EdgeUpdatedMsgType =>
    match obj with
    | .edge e =>
      let r := S.EdgeUpdated g e
      { Graph := r.1, calls := [.EdgeUpdated e r.2], log := [], err := r.2, panicked := false }
    | _ => Branch.panic g
  | .EdgeDeletedMsgType =>
    match obj with
    | .edge e =>
      let r := S.EdgeDeleted g e
      { Graph := r.1, calls := [.EdgeDeleted e r.2], log := [], err := r.2, panicked := false }
    | _ => Branch.panic g
  | .EdgeAddedMsgType =>
    match obj with
    | .edge e =>
      let r := S.EdgeAdded g e
      { Graph := r.1, calls := [.EdgeAdded e r.2], log := [], err := r.2, panicked := false }
    | _ => Branch.panic g
  | .Other _ => { Graph := g, calls := [], log := [], err := none, panicked := false }

/-- Method `TopologyAgentEndpoint.OnStructMessage`: decode the message; on a decode
error log it and return; otherwise `Lock`, run the `switch`, log the error
left in `err`, and `Unlock` (deferred, so it also runs when the switch
panics).  `UnmarshalMessage` is `graph.UnmarshalMessage`, a parameter; `c` is
the speaker the message came from, which the handler never touches. -/
def OnStructMessage {G M : Type} (S : GraphStore G)
    (UnmarshalMessage : M → Except Error (MsgType × Obj))
    (_c : Speaker) (g : G) (msg : M) : Outcome G :=
  match UnmarshalMessage msg with
  | .error err =>
    { Graph := g
      calls := []
      log := [.Errorf "Graph: Unable to parse the event : %s" err]
      panicked := false }
  | .ok (msgType, obj) =>
    let b := dispatch S g msgType obj
    { Graph := b.Graph
      calls := [Call.Lock] ++ b.calls ++ [Call.Unlock]
      log := b.log ++ (if b.panicked then [] else logError b.err)
      panicked := b.panicked }

/-- Method `TopologyAgentEndpoint.OnDisconnected`: the origin is the service type,
followed by `"." + host` when the remote host is not empty; the origin's graph
is deleted under the lock. -/
def OnDisconnected {G : Type} (S : GraphStore G) (c : Speaker) (g : G) : Outcome G :=
  let host := c.GetRemoteHost
  let origin := if host.length > 0 then c.GetServiceType ++ "." ++ host else c.GetServiceType
  { Graph := S.DelOriginGraph g origin
    calls := [.Lock, .DelOriginGraph origin, .Unlock]
    log := [.Debugf "Authoritative client unregistered, delete resources %s" [origin]]
    panicked := false }

/-! ## Driving the endpoint -/

/-- One event the connection pool delivers to the endpoint: a message of a
connection, or the disconnection of a connection. -/
inductive Input (M : Type) where
  | message (c : Speaker) (msg : M)
  | disconnect (c : Speaker)

/-- The handler call an input triggers. -/
def handle {G M : Type} (S : GraphStore G)
    (UnmarshalMessage : M → Except Error (MsgType × Obj)) (g : G) : Input M → Outcome G
  | .message c msg => OnStructMessage S UnmarshalMessage c g msg
  | .disconnect c => OnDisconnected S c g

/-- The handler calls of a sequence of inputs, one after the other, each on
the graph the previous one left; calls and log lines are concatenated. -/
def run {G M : Type} (S : GraphStore G)
    (UnmarshalMessage : M → Except Error (MsgType × Obj)) (g : G) :
    List (Input M) → Outcome G
  | [] => { Graph := g, calls := [], log := [], panicked := false }
  | i :: is =>
    let o := handle S UnmarshalMessage g i
    let rest := run S UnmarshalMessage o.Graph is
    { Graph := rest.Graph
      calls := o.calls ++ rest.calls
      log := o.log ++ rest.log
      panicked := o.panicked || rest.panicked }

/-- A mutex run over a trace of calls: `held` says whether the lock is held;
the result is `none` when the trace locks a held lock, unlocks a free one or
touches the graph without the lock, and otherwise the final state of the
lock. -/
def lockTrace : Bool → List Call → Option Bool
  | held, [] => some held
  | held, .Lock :: cs => if held then none else lockTrace true cs
  | held, .Unlock :: cs => if held then lockTrace false cs else none
  | held, _ :: cs => if held then lockTrace true cs else none

/-- A codec for examples: the envelope is the decoded message itself, or
`none` for an envelope that cannot be decoded. -/
def exampleUnmarshal : Option (MsgType × Obj) → Except Error (MsgType × Obj)
  | some m => .ok m
  | none => .error (.Decode "malformed")

/-! ## A graph store following the specification -/

/-- Modelled from the spec: the graph of package `graph` (`graph.Graph`, not
part of the endpoint's file): all nodes and edges, indexed by ID, so that no
two nodes and no two edges share an ID. -/
structure Graph where
  nodes : List Node
  edges : List Edge
  nodesUnique : (nodes.map Node.ID).Nodup
  edgesUnique : (edges.map Edge.ID).Nodup

namespace Graph

/-- Modelled from the spec: the graph without nodes and edges. -/
def empty : Graph :=
  { nodes := [], edges := [], nodesUnique := List.nodup_nil, edgesUnique := List.nodup_nil }

/-- Modelled from the spec: `GetNode(id)`, a pure lookup by ID. -/
def GetNode (g : Graph) (id : Identifier) : Option Node :=
  g.nodes.find? (fun n => decide (n.ID = id))

/-- Modelled from the spec: `GetEdge(id)`, a pure lookup by ID. -/
def GetEdge (g : Graph) (id : Identifier) : Option Edge :=
  g.edges.find? (fun e => decide (e.ID = id))

/-- Modelled from the spec: `NodeAdded(node)` inserts the node only if its ID
is not already present, never overwrites a stored node, and returns success. -/
def NodeAdded (g : Graph) (n : Node) : Graph × Option Error :=
  if h : n.ID ∈ g.nodes.map Node.ID then (g, none)
  else ({ g with nodes := n :: g.nodes, nodesUnique := List.nodup_cons.2 ⟨h, g.nodesUnique⟩ }, none)

/-- Modelled from the spec: the mutable fields of a stored node, replaced by
those of `n`; identity and origin stay. -/
def updateNode (n m : Node) : Node :=
  if m.ID = n.ID then { m with Metadata := n.Metadata, Revision := n.Revision } else m

/-- Modelled from the spec: `NodeUpdated(node)` replaces the mutable fields of
the node stored under the ID and fails with `NotFound` if there is none. -/
def NodeUpdated (g : Graph) (n : Node) : Graph × Option Error :=
  if n.ID ∈ g.nodes.map Node.ID then
    ({ g with
       nodes := g.nodes.map (updateNode n)
       nodesUnique := by
         have h : Node.ID ∘ updateNode n = Node.ID := by
           funext m
           simp only [Function.comp, updateNode]
           split <;> rfl
         rw [List.map_map, h]
         exact g.nodesUnique }, none)
  else (g, some (.NotFound n.ID))

/-- Modelled from the spec: `NodeDeleted(node)` removes the node by ID, and
with it every edge that references it; it fails with `NotFound` if there is
no such node. -/
def NodeDeleted (g : Graph) (n : Node) : Graph × Option Error :=
  if n.ID ∈ g.nodes.map Node.ID then
    ({ nodes := g.nodes.filter (fun m => decide (m.ID ≠ n.ID))
       edges := g.edges.filter (fun e => decide (e.Parent ≠ n.ID ∧ e.Child ≠ n.ID))
       nodesUnique := List.Nodup.sublist ((List.filter_sublist _).map _) g.nodesUnique
       edgesUnique := List.Nodup.sublist ((List.filter_sublist _).map _) g.edgesUnique }, none)
  else (g, some (.NotFound n.ID))

/-- Modelled from the spec: `EdgeAdded(edge)`, symmetric to `NodeAdded`,
keyed by the edge ID. -/
def EdgeAdded (g : Graph) (e : Edge) : Graph × Option Error :=
  if h : e.ID ∈ g.edges.map Edge.ID then (g, none)
  else ({ g with edges := e :: g.edges, edgesUnique := List.nodup_cons.2 ⟨h, g.edgesUnique⟩ }, none)

/-- Modelled from the spec: the mutable field of a stored edge, replaced by
that of `e`; identity, origin and end points stay. -/
def updateEdge (e d : Edge) : Edge :=
  if d.ID = e.ID then { d with Metadata := e.Metadata } else d

/-- Modelled from the spec: `EdgeUpdated(edge)`, symmetric to `NodeUpdated`. -/
def EdgeUpdated (g : Graph) (e : Edge) : Graph × Option Error :=
  if e.ID ∈ g.edges.map Edge.ID then
    ({ g with
       edges := g.edges.map (updateEdge e)
       edgesUnique := by
         have h : Edge.ID ∘ updateEdge e = Edge.ID := by
           funext d
           simp only [Function.comp, updateEdge]
           split <;> rfl
         rw [List.map_map, h]
         exact g.edgesUnique }, none)
  else (g, some (.NotFound e.ID))

/-- Modelled from the spec: `EdgeDeleted(edge)`, symmetric to `NodeDeleted`. -/
def EdgeDeleted (g : Graph) (e : Edge) : Graph × Option Error :=
  if e.ID ∈ g.edges.map Edge.ID then
    ({ g with
       edges := g.edges.filter (fun d => decide (d.ID ≠ e.ID))
       edgesUnique := List.Nodup.sublist ((List.filter_sublist _).map _) g.edgesUnique }, none)
  else (g, some (.NotFound e.ID))

/-- Modelled from the spec: `id` is the ID of a node that the deletion of
`origin` removes from `g`. -/
def removedBy (g : Graph) (origin : String) (id : Identifier) : Bool :=
  g.nodes.any (fun n => decide (n.ID = id ∧ n.Origin = origin))

/-- Modelled from the spec: `DelOriginGraph(origin)` removes every node and
edge whose origin equals `origin`, and every edge left dangling by the
removal of one of these nodes. -/
def DelOriginGraph (g : Graph) (origin : String) : Graph :=
  { nodes := g.nodes.filter (fun n => decide (n.Origin ≠ origin))
    edges := g.edges.filter (fun e =>
      decide (e.Origin ≠ origin) && !(g.removedBy origin e.Parent) && !(g.removedBy origin e.Child))
    nodesUnique := List.Nodup.sublist ((List.filter_sublist _).map _) g.nodesUnique
    edgesUnique := List.Nodup.sublist ((List.filter_sublist _).map _) g.edgesUnique }

end Graph

/-- Modelled from the spec: the graph store of the specification's contract,
as the interface the endpoint calls. -/
def specStore : GraphStore Graph :=
  { GetNode := Graph.GetNode
    GetEdge := Graph.GetEdge
    NodeAdded := Graph.NodeAdded
    NodeUpdated := Graph.NodeUpdated
    NodeDeleted := Graph.NodeDeleted
    EdgeAdded := Graph.EdgeAdded
    EdgeUpdated := Graph.EdgeUpdated
    EdgeDeleted := Graph.EdgeDeleted
    DelOriginGraph := Graph.DelOriginGraph }

/-- The error lines of a branch are the errors its calls returned, the value
left in `err` apart. -/
def Branch.errorsLogged {G : Type} (st : Branch G) : Prop :=
  st.log.filter LogEntry.isError ++ logError st.err
    = (st.calls.filterMap Call.err).map LogEntry.Error

/-! ## The contract of the graph store -/

/-- Modelled from the spec: a store operation that fails (an update or a
delete of an ID that is not stored) has no effect on the graph. -/
structure FailureKeepsGraph {G : Type} (S : GraphStore G) : Prop where
  nodeAdded : ∀ g n e, (S.NodeAdded g n).2 = some e → (S.NodeAdded g n).1 = g
  nodeUpdated : ∀ g n e, (S.NodeUpdated g n).2 = some e → (S.NodeUpdated g n).1 = g
  nodeDeleted : ∀ g n e, (S.NodeDeleted g n).2 = some e → (S.NodeDeleted g n).1 = g
  edgeAdded : ∀ g d e, (S.EdgeAdded g d).2 = some e → (S.EdgeAdded g d).1 = g
  edgeUpdated : ∀ g d e, (S.EdgeUpdated g d).2 = some e → (S.EdgeUpdated g d).1 = g
  edgeDeleted : ∀ g d e, (S.EdgeDeleted g d).2 = some e → (S.EdgeDeleted g d).1 = g

/-- Modelled from the spec: `NodeAdded`/`EdgeAdded` of an ID that is not
stored insert the item under its ID and leave every other lookup as it was. -/
structure AddContract {G : Type} (S : GraphStore G) : Prop where
  getNode_nodeAdded : ∀ g n, S.GetNode g n.ID = none →
    S.GetNode (S.NodeAdded g n).1 n.ID = some n
  getNode_nodeAdded_ne : ∀ g n id, S.GetNode g n.ID = none → id ≠ n.ID →
    S.GetNode (S.NodeAdded g n).1 id = S.GetNode g id
  getEdge_nodeAdded : ∀ g n id, S.GetNode g n.ID = none →
    S.GetEdge (S.NodeAdded g n).1 id = S.GetEdge g id
  getEdge_edgeAdded : ∀ g e, S.GetEdge g e.ID = none →
    S.GetEdge (S.EdgeAdded g e).1 e.ID = some e
  getEdge_edgeAdded_ne : ∀ g e id, S.GetEdge g e.ID = none → id ≠ e.ID →
    S.GetEdge (S.EdgeAdded g e).1 id = S.GetEdge g id
  getNode_edgeAdded : ∀ g e id, S.GetEdge g e.ID = none →
    S.GetNode (S.EdgeAdded g e).1 id = S.GetNode g id

/-- Modelled from the spec: `DelOriginGraph(origin)` removes the node stored
under an ID when its origin is `origin`, and leaves the lookup of a node of
another origin as it was. -/
structure OriginContract {G : Type} (S : GraphStore G) : Prop where
  getNode_delOrigin : ∀ g o id, (∀ m, S.GetNode g id = some m → m.Origin = o) →
    S.GetNode (S.DelOriginGraph g o) id = none
  getNode_delOrigin_ne : ∀ g o id m, S.GetNode g id = some m → m.Origin ≠ o →
    S.GetNode (S.DelOriginGraph g o) id = some m

/-- Modelled from the spec: who owns an ID changes only through an add.  The
node an operation leaves under an ID is the payload of a `NodeAdded` with
that ID, or a node that was stored under the ID before, with the same origin
(the same node, but for `NodeUpdated`, which replaces mutable fields); edge
operations leave node lookups as they were. -/
structure OwnerContract {G : Type} (S : GraphStore G) : Prop where
  nodeAdded : ∀ g n id m, S.GetNode (S.NodeAdded g n).1 id = some m →
    (m = n ∧ n.ID = id) ∨ S.GetNode g id = some m
  nodeUpdated : ∀ g n id m, S.GetNode (S.NodeUpdated g n).1 id = some m →
    ∃ m0, S.GetNode g id = some m0 ∧ m0.Origin = m.Origin
  nodeDeleted : ∀ g n id m, S.GetNode (S.NodeDeleted g n).1 id = some m →
    S.GetNode g id = some m
  edgeAdded : ∀ g e id, S.GetNode (S.EdgeAdded g e).1 id = S.GetNode g id
  edgeUpdated : ∀ g e id, S.GetNode (S.EdgeUpdated g e).1 id = S.GetNode g id
  edgeDeleted : ∀ g e id, S.GetNode (S.EdgeDeleted g e).1 id = S.GetNode g id
  delOriginGraph : ∀ g o id m, S.GetNode (S.DelOriginGraph g o) id = some m →
    S.GetNode g id = some m

/-- The nodes a decoded message asks the endpoint to add: the payload of a
`NodeAdded` message, the nodes of a `Sync` or `SyncReply` batch. -/
def addedNodes : MsgType → Obj → List Node
  | .NodeAddedMsgType, .node n => [n]
  | .SyncMsgType, .sync r => r.Nodes
  | .SyncReplyMsgType, .sync r => r.Nodes
  | _, _ => []

/-- The origin of a connection in the words of the specification: the service
type, followed by `"." ++ host` when a remote host is known. -/
def specOrigin (serviceType host : String) : String :=
  if host = "" then serviceType else serviceType ++ "." ++ host

/-! ## Example data -/

/-- Example node `{ID: "n1"}` of origin `"agent.h1"` with metadata `{a: 1}`. -/
def n1 : Node := { ID := "n1", Origin := "agent.h1", Metadata := [("a", 1)], Revision := 1 }

/-- Example node `{ID: "n1"}` of origin `"agent.h1"` with metadata `{a: 2}`. -/
def n1b : Node := { ID := "n1", Origin := "agent.h1", Metadata := [("a", 2)], Revision := 2 }

/-- Example node `{ID: "n2"}` of origin `"agent.h1"`. -/
def n2 : Node := { ID := "n2", Origin := "agent.h1", Metadata := [], Revision := 1 }

/-- Example node `{ID: "m1"}` of origin `"agentB.h2"`. -/
def m1 : Node := { ID := "m1", Origin := "agentB.h2", Metadata := [("b", 7)], Revision := 1 }

/-- Example edge `{ID: "e1"}` of origin `"agent.h1"` from `n1` to `n2`. -/
def e1 : Edge := { ID := "e1", Origin := "agent.h1", Parent := "n1", Child := "n2", Metadata := [] }

/-- The speaker of an agent with service type `"agent"` on host `"h1"`. -/
def agentH1 : Speaker := { GetRemoteHost := "h1", GetServiceType := "agent" }

/-- The graph that holds the node `n1` only. -/
def graphN1 : Graph := (Graph.NodeAdded Graph.empty n1).1

/-- Example node `{ID: "n1"}` owned by another origin, `"agentB.h2"`. -/
def n1foreign : Node := { ID := "n1", Origin := "agentB.h2", Metadata := [], Revision := 1 }

/-- The graph that holds the node `n1foreign` only. -/
def graphForeign : Graph := (Graph.NodeAdded Graph.empty n1foreign).1

/-- The graph that holds the node `n1` and the edge `e1`; the child of `e1`,
`n2`, is not stored. -/
def graphN1E1 : Graph := (Graph.EdgeAdded graphN1 e1).1

/-- Example edge `{ID: "e2"}` of origin `"agentB.h2"` from `m1` to `n1`. -/
def e2 : Edge := { ID := "e2", Origin := "agentB.h2", Parent := "m1", Child := "n1", Metadata := [] }

/-- The graph that holds the nodes `n1`, `n2`, `m1` and the edges `e1`, `e2`. -/
def graphCross : Graph :=
  (Graph.EdgeAdded (Graph.EdgeAdded (Graph.NodeAdded (Graph.NodeAdded graphN1 n2).1 m1).1 e1).1
    e2).1

/-- A store for examples: the store of the specification, except that
`NodeAdded` refuses a node with ID `"n1"` with an error and leaves the graph
as it is. -/
def refusingStore : GraphStore Graph :=
  { specStore with
    NodeAdded := fun g n =>
      if n.ID = "n1" then (g, some (.Store "refused")) else Graph.NodeAdded g n }

/-! ## Lemmas on the endpoint, for every store -/

section Generic

variable {G M : Type}

theorem foldl_preserves {α β : Type} (P : α → Prop) (f : α → β → α)
    (h : ∀ a b, P a → P (f a b)) : ∀ (l : List β) (a : α), P a → P (l.foldl f a) := by
  intro l
  induction l with
  | nil => intro a ha; exact ha
  | cons b l ih => intro a ha; exact ih (f a b) (h a b ha)

theorem filter_isError_logError (e : Option Error) :
    (logError e).filter LogEntry.isError = logError e := by
  cases e <;> simp [logError, LogEntry.isError]

theorem syncNode_noLock (S : GraphStore G) (st : Branch G) (n : Node)
    (h : ∀ x ∈ st.calls, Call.isLockOp x = false) :
    ∀ x ∈ (syncNode S st n).calls, Call.isLockOp x = false := by
  unfold syncNode
  split
  · intro x hx
    simp only [List.mem_append, List.mem_singleton] at hx
    rcases hx with hx | hx
    · exact h x hx
    · subst hx; rfl
  · intro x hx
    simp only [List.mem_append, List.mem_cons, List.mem_singleton, List.not_mem_nil,
      or_false] at hx
    rcases hx with hx | hx | hx
    · exact h x hx
    · subst hx; rfl
    · subst hx; rfl

theorem syncEdge_noLock (S : GraphStore G) (st : Branch G) (e : Edge)
    (h : ∀ x ∈ st.calls, Call.isLockOp x = false) :
    ∀ x ∈ (syncEdge S st e).calls, Call.isLockOp x = false := by
  unfold syncEdge
  split
  · intro x hx
    simp only [List.mem_append, List.mem_singleton] at hx
    rcases hx with hx | hx
    · exact h x hx
    · subst hx; rfl
  · intro x hx
    simp only [List.mem_append, List.mem_cons, List.mem_singleton, List.not_mem_nil,
      or_false] at hx
    rcases hx with hx | hx | hx
    · exact h x hx
    · subst hx; rfl
    · subst hx; rfl

theorem syncNode_errorsLogged (S : GraphStore G) (st : Branch G) (n : Node)
    (herr : st.err = none) (h : st.errorsLogged) :
    (syncNode S st n).err = none ∧ (syncNode S st n).errorsLogged := by
  unfold Branch.errorsLogged at h ⊢
  rw [herr] at h
  unfold syncNode
  split
  · simp [herr, logError, Call.err] at h ⊢
    exact h
  · cases hr : (S.NodeAdded st.Graph n).2 <;>
      simp [herr, logError, Call.err, hr, LogEntry.isError] at h ⊢ <;> exact h

theorem syncEdge_errorsLogged (S : GraphStore G) (st : Branch G) (e : Edge)
    (herr : st.err = none) (h : st.errorsLogged) :
    (syncEdge S st e).err = none ∧ (syncEdge S st e).errorsLogged := by
  unfold Branch.errorsLogged at h ⊢
  rw [herr] at h
  unfold syncEdge
  split
  · simp [herr, logError, Call.err] at h ⊢
    exact h
  · cases hr : (S.EdgeAdded st.Graph e).2 <;>
      simp [herr, logError, Call.err, hr, LogEntry.isError] at h ⊢ <;> exact h

theorem syncNode_panicked (S : GraphStore G) (st : Branch G) (n : Node) :
    (syncNode S st n).panicked = st.panicked := by
  unfold syncNode; split <;> rfl

theorem syncEdge_panicked (S : GraphStore G) (st : Branch G) (e : Edge) :
    (syncEdge S st e).panicked = st.panicked := by
  unfold syncEdge; split <;> rfl

theorem foldl_syncNode_panicked (S : GraphStore G) (ns : List Node) (st : Branch G) :
    (ns.foldl (syncNode S) st).panicked = st.panicked := by
  induction ns generalizing st with
  | nil => rfl
  | cons n ns ih => rw [List.foldl_cons, ih, syncNode_panicked]

theorem foldl_syncEdge_panicked (S : GraphStore G) (es : List Edge) (st : Branch G) :
    (es.foldl (syncEdge S) st).panicked = st.panicked := by
  induction es generalizing st with
  | nil => rfl
  | cons e es ih => rw [List.foldl_cons, ih, syncEdge_panicked]

theorem foldl_syncNode_lookups (S : GraphStore G) (ns : List Node) (st : Branch G) :
    (ns.foldl (syncNode S) st).calls.filterMap Call.nodeLookup
        = st.calls.filterMap Call.nodeLookup ++ ns.map Node.ID ∧
      (ns.foldl (syncNode S) st).calls.filterMap Call.edgeLookup
        = st.calls.filterMap Call.edgeLookup := by
  induction ns generalizing st with
  | nil => simp
  | cons n ns ih =>
    rw [List.foldl_cons]
    obtain ⟨h1, h2⟩ := ih (syncNode S st n)
    rw [h1, h2]
    unfold syncNode
    split <;> simp [Call.nodeLookup, Call.edgeLookup]

theorem foldl_syncEdge_lookups (S : GraphStore G) (es : List Edge) (st : Branch G) :
    (es.foldl (syncEdge S) st).calls.filterMap Call.edgeLookup
        = st.calls.filterMap Call.edgeLookup ++ es.map Edge.ID ∧
      (es.foldl (syncEdge S) st).calls.filterMap Call.nodeLookup
        = st.calls.filterMap Call.nodeLookup := by
  induction es generalizing st with
  | nil => simp
  | cons e es ih =>
    rw [List.foldl_cons]
    obtain ⟨h1, h2⟩ := ih (syncEdge S st e)
    rw [h1, h2]
    unfold syncEdge
    split <;> simp [Call.nodeLookup, Call.edgeLookup]

/-- No branch of the switch locks or unlocks. -/
theorem dispatch_noLock (S : GraphStore G) (g : G) (t : MsgType) (obj : Obj) :
    ∀ x ∈ (dispatch S g t obj).calls, Call.isLockOp x = false := by
  have hsync : ∀ r : SyncMsg, ∀ x ∈ (r.Edges.foldl (syncEdge S)
      (r.Nodes.foldl (syncNode S)
        { Graph := g, calls := [], log := [], err := none, panicked := false })).calls,
      Call.isLockOp x = false := by
    intro r
    apply foldl_preserves (fun st : Branch G => ∀ x ∈ st.calls, Call.isLockOp x = false)
      (syncEdge S) (fun a b h => syncEdge_noLock S a b h)
    apply foldl_preserves (fun st : Branch G => ∀ x ∈ st.calls, Call.isLockOp x = false)
      (syncNode S) (fun a b h => syncNode_noLock S a b h)
    intro x hx
    simp at hx
  cases t <;> cases obj <;>
    first
    | exact hsync _
    | (intro x hx
       simp only [dispatch, Branch.panic, List.mem_singleton, List.not_mem_nil] at hx
         <;> (subst hx; rfl))

/-- Every branch of the switch logs the errors its calls return, or leaves
the one error of its single call in `err`. -/
theorem dispatch_errorsLogged (S : GraphStore G) (g : G) (t : MsgType) (obj : Obj) :
    (dispatch S g t obj).errorsLogged := by
  have hsync : ∀ r : SyncMsg, (r.Edges.foldl (syncEdge S)
      (r.Nodes.foldl (syncNode S)
        { Graph := g, calls := [], log := [], err := none, panicked := false })).errorsLogged := by
    intro r
    refine (foldl_preserves (fun st : Branch G => st.err = none ∧ st.errorsLogged)
      (syncEdge S) (fun a b h => syncEdge_errorsLogged S a b h.1 h.2) _ _ ?_).2
    refine foldl_preserves (fun st : Branch G => st.err = none ∧ st.errorsLogged)
      (syncNode S) (fun a b h => syncNode_errorsLogged S a b h.1 h.2) _ _ ?_
    exact ⟨rfl, by simp [Branch.errorsLogged, logError]⟩
  cases t <;> cases obj <;>
    first
    | exact hsync _
    | (simp only [dispatch, Branch.panic, Branch.errorsLogged]
       first
       | rfl
       | (generalize (GraphStore.NodeUpdated S g _).2 = e; cases e <;> rfl)
       | (generalize (GraphStore.NodeDeleted S g _).2 = e; cases e <;> rfl)
       | (generalize (GraphStore.NodeAdded S g _).2 = e; cases e <;> rfl)
       | (generalize (GraphStore.EdgeUpdated S g _).2 = e; cases e <;> rfl)
       | (generalize (GraphStore.EdgeDeleted S g _).2 = e; cases e <;> rfl)
       | (generalize (GraphStore.EdgeAdded S g _).2 = e; cases e <;> rfl))

/-- A panicking branch has called nothing and left no error. -/
theorem dispatch_panicked (S : GraphStore G) (g : G) (t : MsgType) (obj : Obj)
    (h : (dispatch S g t obj).panicked = true) :
    (dispatch S g t obj).calls = [] ∧ (dispatch S g t obj).log = [] ∧
      (dispatch S g t obj).err = none ∧ (dispatch S g t obj).Graph = g := by
  cases t <;> cases obj <;>
    simp_all [dispatch, Branch.panic, foldl_syncEdge_panicked, foldl_syncNode_panicked]

theorem lockTrace_held_noLock (cs : List Call) (h : ∀ x ∈ cs, Call.isLockOp x = false) :
    ∀ rest, lockTrace true (cs ++ rest) = lockTrace true rest := by
  induction cs with
  | nil => intro rest; rfl
  | cons c cs ih =>
    intro rest
    have hc := h c (List.mem_cons_self _ _)
    have htl : ∀ x ∈ cs, Call.isLockOp x = false := fun x hx => h x (List.mem_cons_of_mem _ hx)
    cases c <;> simp [Call.isLockOp] at hc <;>
      (simp only [List.cons_append, lockTrace, if_true]; exact ih htl rest)

theorem lockTrace_section (cs rest : List Call) (h : ∀ x ∈ cs, Call.isLockOp x = false) :
    lockTrace false (Call.Lock :: cs ++ [Call.Unlock] ++ rest) = lockTrace false rest := by
  have : Call.Lock :: cs ++ [Call.Unlock] ++ rest = Call.Lock :: (cs ++ (Call.Unlock :: rest)) := by
    simp
  rw [this]
  simp only [lockTrace, Bool.false_eq_true, if_false]
  rw [lockTrace_held_noLock cs h]
  simp [lockTrace]

theorem syncNode_graph (S : GraphStore G) (st : Branch G) (n : Node) :
    (syncNode S st n).Graph
      = match S.GetNode st.Graph n.ID with
        | some _ => st.Graph
        | none => (S.NodeAdded st.Graph n).1 := by
  unfold syncNode; split <;> rfl

theorem syncEdge_graph (S : GraphStore G) (st : Branch G) (e : Edge) :
    (syncEdge S st e).Graph
      = match S.GetEdge st.Graph e.ID with
        | some _ => st.Graph
        | none => (S.EdgeAdded st.Graph e).1 := by
  unfold syncEdge; split <;> rfl

/-- After the node loop a lookup returns what was stored first: the node the
graph held before, or else the first node of the batch with that ID. -/
theorem foldl_syncNode_getNode (S : GraphStore G) (hS : AddContract S) (ns : List Node)
    (st : Branch G) (id : Identifier) :
    S.GetNode (ns.foldl (syncNode S) st).Graph id
      = match S.GetNode st.Graph id with
        | some m => some m
        | none => ns.find? (fun x => decide (x.ID = id)) := by
  induction ns generalizing st with
  | nil =>
    simp only [List.foldl_nil]
    cases h : S.GetNode st.Graph id <;> simp
  | cons n ns ih =>
    rw [List.foldl_cons, ih, syncNode_graph]
    cases hn : S.GetNode st.Graph n.ID with
    | some m0 =>
      simp only []
      cases hid : S.GetNode st.Graph id with
      | some m => rfl
      | none =>
        have hne : ¬ n.ID = id := by
          intro h; rw [h] at hn; rw [hn] at hid; exact absurd hid (by simp)
        simp [List.find?_cons, hne]
    | none =>
      simp only []
      by_cases hid : id = n.ID
      · subst hid
        rw [hS.getNode_nodeAdded _ _ hn, hn]
        simp [List.find?_cons]
      · rw [hS.getNode_nodeAdded_ne _ _ _ hn hid]
        have hne : ¬ n.ID = id := fun h => hid h.symm
        cases S.GetNode st.Graph id <;> simp [List.find?_cons, hne]

theorem foldl_syncNode_getEdge (S : GraphStore G) (hS : AddContract S) (ns : List Node)
    (st : Branch G) (id : Identifier) :
    S.GetEdge (ns.foldl (syncNode S) st).Graph id = S.GetEdge st.Graph id := by
  induction ns generalizing st with
  | nil => rfl
  | cons n ns ih =>
    rw [List.foldl_cons, ih, syncNode_graph]
    cases hn : S.GetNode st.Graph n.ID with
    | some m0 => rfl
    | none => exact hS.getEdge_nodeAdded _ _ _ hn

theorem foldl_syncEdge_getEdge (S : GraphStore G) (hS : AddContract S) (es : List Edge)
    (st : Branch G) (id : Identifier) :
    S.GetEdge (es.foldl (syncEdge S) st).Graph id
      = match S.GetEdge st.Graph id with
        | some m => some m
        | none => es.find? (fun x => decide (x.ID = id)) := by
  induction es generalizing st with
  | nil =>
    simp only [List.foldl_nil]
    cases h : S.GetEdge st.Graph id <;> simp
  | cons e es ih =>
    rw [List.foldl_cons, ih, syncEdge_graph]
    cases hn : S.GetEdge st.Graph e.ID with
    | some m0 =>
      simp only []
      cases hid : S.GetEdge st.Graph id with
      | some m => rfl
      | none =>
        have hne : ¬ e.ID = id := by
          intro h; rw [h] at hn; rw [hn] at hid; exact absurd hid (by simp)
        simp [List.find?_cons, hne]
    | none =>
      simp only []
      by_cases hid : id = e.ID
      · subst hid
        rw [hS.getEdge_edgeAdded _ _ hn, hn]
        simp [List.find?_cons]
      · rw [hS.getEdge_edgeAdded_ne _ _ _ hn hid]
        have hne : ¬ e.ID = id := fun h => hid h.symm
        cases S.GetEdge st.Graph id <;> simp [List.find?_cons, hne]

theorem foldl_syncEdge_getNode (S : GraphStore G) (hS : AddContract S) (es : List Edge)
    (st : Branch G) (id : Identifier) :
    S.GetNode (es.foldl (syncEdge S) st).Graph id = S.GetNode st.Graph id := by
  induction es generalizing st with
  | nil => rfl
  | cons e es ih =>
    rw [List.foldl_cons, ih, syncEdge_graph]
    cases hn : S.GetEdge st.Graph e.ID with
    | some m0 => rfl
    | none => exact hS.getNode_edgeAdded _ _ _ hn

/-- The node loop leaves the graph as it is when every ID is stored. -/
theorem foldl_syncNode_present (S : GraphStore G) (ns : List Node) (st : Branch G)
    (h : ∀ n ∈ ns, S.GetNode st.Graph n.ID ≠ none) :
    (ns.foldl (syncNode S) st).Graph = st.Graph := by
  induction ns generalizing st with
  | nil => rfl
  | cons n ns ih =>
    have hn := h n (List.mem_cons_self _ _)
    have hg : (syncNode S st n).Graph = st.Graph := by
      rw [syncNode_graph]
      cases hc : S.GetNode st.Graph n.ID with
      | some m0 => rfl
      | none => exact absurd hc hn
    rw [List.foldl_cons, ih, hg]
    intro m hm
    rw [hg]
    exact h m (List.mem_cons_of_mem _ hm)

/-- The edge loop leaves the graph as it is when every ID is stored. -/
theorem foldl_syncEdge_present (S : GraphStore G) (es : List Edge) (st : Branch G)
    (h : ∀ e ∈ es, S.GetEdge st.Graph e.ID ≠ none) :
    (es.foldl (syncEdge S) st).Graph = st.Graph := by
  induction es generalizing st with
  | nil => rfl
  | cons e es ih =>
    have hn := h e (List.mem_cons_self _ _)
    have hg : (syncEdge S st e).Graph = st.Graph := by
      rw [syncEdge_graph]
      cases hc : S.GetEdge st.Graph e.ID with
      | some m0 => rfl
      | none => exact absurd hc hn
    rw [List.foldl_cons, ih, hg]
    intro m hm
    rw [hg]
    exact h m (List.mem_cons_of_mem _ hm)

/-- The graph a `Sync`/`SyncReply` batch leaves. -/
theorem OnStructMessage_sync_graph (S : GraphStore G) (U : M → Except Error (MsgType × Obj))
    (c : Speaker) (g : G) (msg : M) (t : MsgType) (b : SyncMsg)
    (ht : t = .SyncMsgType ∨ t = .SyncReplyMsgType) (hU : U msg = .ok (t, .sync b)) :
    (OnStructMessage S U c g msg).Graph
      = (b.Edges.foldl (syncEdge S) (b.Nodes.foldl (syncNode S)
          { Graph := g, calls := [], log := [], err := none, panicked := false })).Graph := by
  rcases ht with ht | ht <;> subst ht <;> simp [OnStructMessage, hU, dispatch]

theorem find?_isSome_of_mem_id {α : Type} (f : α → Identifier) (l : List α) (a : α)
    (h : a ∈ l) : ∃ x, l.find? (fun y => decide (f y = f a)) = some x ∧ f x = f a := by
  cases hf : l.find? (fun y => decide (f y = f a)) with
  | none =>
    rw [List.find?_eq_none] at hf
    exact absurd (hf a h) (by simp)
  | some x =>
    have := List.find?_some hf
    exact ⟨x, rfl, by simpa using this⟩

/-- After a `Sync`/`SyncReply` batch a node lookup returns what was stored
first, and so does an edge lookup. -/
theorem OnStructMessage_sync_lookup (S : GraphStore G) (hS : AddContract S)
    (U : M → Except Error (MsgType × Obj))
    (c : Speaker) (g : G) (msg : M) (t : MsgType) (b : SyncMsg)
    (ht : t = .SyncMsgType ∨ t = .SyncReplyMsgType) (hU : U msg = .ok (t, .sync b)) :
    (∀ id, S.GetNode (OnStructMessage S U c g msg).Graph id
      = match S.GetNode g id with
        | some m => some m
        | none => b.Nodes.find? (fun x => decide (x.ID = id))) ∧
    (∀ id, S.GetEdge (OnStructMessage S U c g msg).Graph id
      = match S.GetEdge g id with
        | some m => some m
        | none => b.Edges.find? (fun x => decide (x.ID = id))) := by
  rw [OnStructMessage_sync_graph S U c g msg t b ht hU]
  constructor
  · intro id
    rw [foldl_syncEdge_getNode S hS, foldl_syncNode_getNode S hS]
  · intro id
    rw [foldl_syncEdge_getEdge S hS, foldl_syncNode_getEdge S hS]

theorem length_pos_iff_ne_empty (s : String) : s.length > 0 ↔ s ≠ "" := by
  rcases s with ⟨l⟩
  cases l with
  | nil => simp [String.length]
  | cons a l =>
    simp [String.length]
    intro h
    have := congrArg String.data h
    simp at this

/-- The origin `OnDisconnected` computes is the origin of the specification. -/
theorem origin_eq_specOrigin (c : Speaker) :
    (if c.GetRemoteHost.length > 0 then c.GetServiceType ++ "." ++ c.GetRemoteHost
      else c.GetServiceType) = specOrigin c.GetServiceType c.GetRemoteHost := by
  unfold specOrigin
  by_cases h : c.GetRemoteHost = ""
  · have : ¬ c.GetRemoteHost.length > 0 := fun hp => (length_pos_iff_ne_empty _).1 hp h
    rw [if_neg this, if_pos h]
  · rw [if_pos ((length_pos_iff_ne_empty _).2 h), if_neg h]

theorem OnDisconnected_eq (S : GraphStore G) (c : Speaker) (g : G) :
    (OnDisconnected S c g).Graph
        = S.DelOriginGraph g (specOrigin c.GetServiceType c.GetRemoteHost) ∧
      (OnDisconnected S c g).calls
        = [.Lock, .DelOriginGraph (specOrigin c.GetServiceType c.GetRemoteHost), .Unlock] ∧
      (OnDisconnected S c g).log
        = [.Debugf "Authoritative client unregistered, delete resources %s"
            [specOrigin c.GetServiceType c.GetRemoteHost]] ∧
      (OnDisconnected S c g).panicked = false := by
  have h := origin_eq_specOrigin c
  refine ⟨?_, ?_, ?_, rfl⟩ <;> simp only [OnDisconnected] <;> rw [h]

theorem OnStructMessage_originDeleted (S : GraphStore G)
    (U : M → Except Error (MsgType × Obj)) (c : Speaker) (g : G) (msg : M) (o : String)
    (hU : U msg = .ok (.OriginGraphDeletedMsgType, .str o)) :
    (OnStructMessage S U c g msg).Graph = S.DelOriginGraph g o ∧
      (OnStructMessage S U c g msg).calls = [.Lock, .DelOriginGraph o, .Unlock] ∧
      (OnStructMessage S U c g msg).log
        = [.Debugf "Got %s message for host %s" ["OriginGraphDeleted", o]] ∧
      (OnStructMessage S U c g msg).panicked = false := by
  simp [OnStructMessage, hU, dispatch, logError, MsgType.name]

/-- The lookup of an ID after two `Sync`/`SyncReply` batches: what the graph
held, or else the first node of the first batch, or else of the second. -/
theorem OnStructMessage_sync_sync_lookup (S : GraphStore G) (hS : AddContract S)
    (U : M → Except Error (MsgType × Obj)) (c1 c2 : Speaker) (g : G) (msg1 msg2 : M)
    (t1 t2 : MsgType) (b1 b2 : SyncMsg)
    (ht1 : t1 = .SyncMsgType ∨ t1 = .SyncReplyMsgType) (hU1 : U msg1 = .ok (t1, .sync b1))
    (ht2 : t2 = .SyncMsgType ∨ t2 = .SyncReplyMsgType) (hU2 : U msg2 = .ok (t2, .sync b2))
    (id : Identifier) :
    S.GetNode (OnStructMessage S U c2 (OnStructMessage S U c1 g msg1).Graph msg2).Graph id
      = match S.GetNode g id with
        | some m => some m
        | none =>
          match b1.Nodes.find? (fun x => decide (x.ID = id)) with
          | some m => some m
          | none => b2.Nodes.find? (fun x => decide (x.ID = id)) := by
  rw [(OnStructMessage_sync_lookup S hS U c2 _ msg2 t2 b2 ht2 hU2).1 id,
    (OnStructMessage_sync_lookup S hS U c1 g msg1 t1 b1 ht1 hU1).1 id]
  cases S.GetNode g id <;> rfl

theorem find?_id_none_of_disjoint (l1 l2 : List Node) (n : Node) (hn : n ∈ l2)
    (hdisj : ∀ x ∈ l1, ∀ y ∈ l2, x.ID ≠ y.ID) :
    l1.find? (fun x => decide (x.ID = n.ID)) = none := by
  rw [List.find?_eq_none]
  intro x hx
  simpa using hdisj x hx n hn

theorem foldl_syncNode_err (S : GraphStore G) (ns : List Node) (st : Branch G) :
    (ns.foldl (syncNode S) st).err = st.err := by
  induction ns generalizing st with
  | nil => rfl
  | cons n ns ih =>
    rw [List.foldl_cons, ih]
    unfold syncNode
    split <;> rfl

theorem foldl_syncEdge_err (S : GraphStore G) (es : List Edge) (st : Branch G) :
    (es.foldl (syncEdge S) st).err = st.err := by
  induction es generalizing st with
  | nil => rfl
  | cons e es ih =>
    rw [List.foldl_cons, ih]
    unfold syncEdge
    split <;> rfl

/-- The outcome of a `Sync`/`SyncReply` batch, from the state the two loops
leave. -/
theorem OnStructMessage_sync_eq (S : GraphStore G) (U : M → Except Error (MsgType × Obj))
    (c : Speaker) (g : G) (msg : M) (t : MsgType) (b : SyncMsg)
    (ht : t = .SyncMsgType ∨ t = .SyncReplyMsgType) (hU : U msg = .ok (t, .sync b)) :
    (OnStructMessage S U c g msg).Graph
      = (b.Edges.foldl (syncEdge S) (b.Nodes.foldl (syncNode S)
          { Graph := g, calls := [], log := [], err := none, panicked := false })).Graph ∧
    (OnStructMessage S U c g msg).calls
      = Call.Lock :: (b.Edges.foldl (syncEdge S) (b.Nodes.foldl (syncNode S)
          { Graph := g, calls := [], log := [], err := none, panicked := false })).calls
          ++ [Call.Unlock] ∧
    (OnStructMessage S U c g msg).log
      = (b.Edges.foldl (syncEdge S) (b.Nodes.foldl (syncNode S)
          { Graph := g, calls := [], log := [], err := none, panicked := false })).log := by
  rcases ht with ht | ht <;> subst ht <;>
    simp [OnStructMessage, hU, dispatch, foldl_syncEdge_panicked, foldl_syncNode_panicked,
      foldl_syncEdge_err, foldl_syncNode_err, logError]

theorem dropLast_lock_unlock (mid rest : List Call) :
    (Call.Lock :: mid ++ [Call.Unlock]).dropLast ++ rest = Call.Lock :: (mid ++ rest) := by
  have h : Call.Lock :: mid ++ [Call.Unlock] = (Call.Lock :: mid) ++ [Call.Unlock] := rfl
  rw [h, List.dropLast_concat]
  rfl

theorem syncNode_owned (S : GraphStore G) (hO : OwnerContract S) (id : Identifier)
    (o : String) (st : Branch G) (n : Node) (hn : n.ID = id → n.Origin = o)
    (h : ∀ m, S.GetNode st.Graph id = some m → m.Origin = o) :
    ∀ m, S.GetNode (syncNode S st n).Graph id = some m → m.Origin = o := by
  rw [syncNode_graph]
  cases S.GetNode st.Graph n.ID with
  | some m0 => exact h
  | none =>
    intro m hm
    rcases hO.nodeAdded _ _ _ _ hm with ⟨hmn, hid⟩ | h0
    · rw [hmn]; exact hn hid
    · exact h m h0

theorem syncEdge_owned (S : GraphStore G) (hO : OwnerContract S) (id : Identifier)
    (o : String) (st : Branch G) (e : Edge)
    (h : ∀ m, S.GetNode st.Graph id = some m → m.Origin = o) :
    ∀ m, S.GetNode (syncEdge S st e).Graph id = some m → m.Origin = o := by
  rw [syncEdge_graph]
  cases S.GetEdge st.Graph e.ID with
  | some m0 => exact h
  | none =>
    intro m hm
    rw [hO.edgeAdded] at hm
    exact h m hm

theorem foldl_syncNode_owned (S : GraphStore G) (hO : OwnerContract S) (id : Identifier)
    (o : String) (ns : List Node) (st : Branch G)
    (hn : ∀ x ∈ ns, x.ID = id → x.Origin = o)
    (h : ∀ m, S.GetNode st.Graph id = some m → m.Origin = o) :
    ∀ m, S.GetNode (ns.foldl (syncNode S) st).Graph id = some m → m.Origin = o := by
  induction ns generalizing st with
  | nil => exact h
  | cons n ns ih =>
    rw [List.foldl_cons]
    exact ih _ (fun x hx => hn x (List.mem_cons_of_mem _ hx))
      (syncNode_owned S hO id o st n (hn n (List.mem_cons_self _ _)) h)

theorem foldl_syncEdge_owned (S : GraphStore G) (hO : OwnerContract S) (id : Identifier)
    (o : String) (es : List Edge) (st : Branch G)
    (h : ∀ m, S.GetNode st.Graph id = some m → m.Origin = o) :
    ∀ m, S.GetNode (es.foldl (syncEdge S) st).Graph id = some m → m.Origin = o := by
  induction es generalizing st with
  | nil => exact h
  | cons e es ih =>
    rw [List.foldl_cons]
    exact ih _ (syncEdge_owned S hO id o st e h)

/-- The switch keeps an ID in the hands of an origin when the message adds no
node with that ID of another origin. -/
theorem dispatch_owned (S : GraphStore G) (hO : OwnerContract S) (id : Identifier)
    (o : String) (g : G) (t : MsgType) (obj : Obj)
    (hadd : ∀ x ∈ addedNodes t obj, x.ID = id → x.Origin = o)
    (h : ∀ m, S.GetNode g id = some m → m.Origin = o) :
    ∀ m, S.GetNode (dispatch S g t obj).Graph id = some m → m.Origin = o := by
  cases t with
  | OriginGraphDeletedMsgType =>
    cases obj <;> simp only [dispatch, Branch.panic] <;>
      first
      | exact h
      | exact fun m hm => h m (hO.delOriginGraph _ _ _ _ hm)
  | SyncMsgType =>
    cases obj <;> simp only [dispatch, Branch.panic] <;>
      first
      | exact h
      | exact foldl_syncEdge_owned S hO id o _ _ (foldl_syncNode_owned S hO id o _ _ hadd h)
  | SyncReplyMsgType =>
    cases obj <;> simp only [dispatch, Branch.panic] <;>
      first
      | exact h
      | exact foldl_syncEdge_owned S hO id o _ _ (foldl_syncNode_owned S hO id o _ _ hadd h)
  | NodeUpdatedMsgType =>
    cases obj with
    | node n =>
      simp only [dispatch]
      intro m hm
      obtain ⟨m0, h0, ho⟩ := hO.nodeUpdated _ _ _ _ hm
      rw [← ho]
      exact h m0 h0
    | str s => exact h
    | sync r => exact h
    | edge e => exact h
    | other => exact h
  | NodeDeletedMsgType =>
    cases obj <;> simp only [dispatch, Branch.panic] <;>
      first
      | exact h
      | exact fun m hm => h m (hO.nodeDeleted _ _ _ _ hm)
  | NodeAddedMsgType =>
    cases obj with
    | node n =>
      simp only [dispatch]
      intro m hm
      rcases hO.nodeAdded _ _ _ _ hm with ⟨hmn, hid⟩ | h0
      · rw [hmn]
        exact hadd n (List.mem_singleton_self n) hid
      · exact h m h0
    | str s => exact h
    | sync r => exact h
    | edge e => exact h
    | other => exact h
  | EdgeUpdatedMsgType =>
    cases obj <;> simp only [dispatch, Branch.panic, hO.edgeUpdated] <;> exact h
  | EdgeDeletedMsgType =>
    cases obj <;> simp only [dispatch, Branch.panic, hO.edgeDeleted] <;> exact h
  | EdgeAddedMsgType =>
    cases obj <;> simp only [dispatch, Branch.panic, hO.edgeAdded] <;> exact h
  | Other name => exact h

/-- A sequence of handler calls keeps an ID in the hands of an origin when no
message adds a node with that ID of another origin. -/
theorem run_owned (S : GraphStore G) (hO : OwnerContract S)
    (U : M → Except Error (MsgType × Obj)) (id : Identifier) (o : String)
    (inputs : List (Input M)) (g : G)
    (hin : ∀ i ∈ inputs, ∀ c msg t obj, i = Input.message c msg → U msg = .ok (t, obj) →
      ∀ x ∈ addedNodes t obj, x.ID = id → x.Origin = o)
    (h : ∀ m, S.GetNode g id = some m → m.Origin = o) :
    ∀ m, S.GetNode (run S U g inputs).Graph id = some m → m.Origin = o := by
  induction inputs generalizing g with
  | nil => exact h
  | cons i is ih =>
    simp only [run]
    apply ih _ (fun j hj => hin j (List.mem_cons_of_mem _ hj))
    cases i with
    | message c msg =>
      simp only [handle, OnStructMessage]
      cases hU : U msg with
      | error err => exact h
      | ok p =>
        obtain ⟨t, obj⟩ := p
        exact dispatch_owned S hO id o g t obj
          (hin _ (List.mem_cons_self _ _) c msg t obj rfl hU) h
    | disconnect c =>
      intro m hm
      exact h m (hO.delOriginGraph _ _ _ _ hm)

end Generic

/-! ## Lemmas on the graph store of the specification -/

theorem specStore_failureKeepsGraph : FailureKeepsGraph specStore := by
  constructor <;> intro g x e h <;>
    simp only [specStore, Graph.NodeAdded, Graph.NodeUpdated, Graph.NodeDeleted,
      Graph.EdgeAdded, Graph.EdgeUpdated, Graph.EdgeDeleted] at h ⊢ <;>
    split at h <;>
    first
    | (simp at h; done)
    | (rename_i hc; rw [if_neg hc])

theorem Graph.getNode_eq_none_iff (g : Graph) (id : Identifier) :
    g.GetNode id = none ↔ id ∉ g.nodes.map Node.ID := by
  simp [Graph.GetNode, List.find?_eq_none]

theorem Graph.getEdge_eq_none_iff (g : Graph) (id : Identifier) :
    g.GetEdge id = none ↔ id ∉ g.edges.map Edge.ID := by
  simp [Graph.GetEdge, List.find?_eq_none]

theorem Graph.nodeAdded_absent (g : Graph) (n : Node) (h : g.GetNode n.ID = none) :
    (g.NodeAdded n).1.nodes = n :: g.nodes ∧ (g.NodeAdded n).1.edges = g.edges := by
  rw [Graph.getNode_eq_none_iff] at h
  simp [Graph.NodeAdded, h]

theorem Graph.edgeAdded_absent (g : Graph) (e : Edge) (h : g.GetEdge e.ID = none) :
    (g.EdgeAdded e).1.edges = e :: g.edges ∧ (g.EdgeAdded e).1.nodes = g.nodes := by
  rw [Graph.getEdge_eq_none_iff] at h
  simp [Graph.EdgeAdded, h]

theorem specStore_addContract : AddContract specStore := by
  constructor
  · intro g n h
    simp [specStore, Graph.GetNode, (Graph.nodeAdded_absent g n h).1]
  · intro g n id h hne
    have hne2 : ¬ n.ID = id := fun h => hne h.symm
    simp [specStore, Graph.GetNode, (Graph.nodeAdded_absent g n h).1, List.find?_cons, hne2]
  · intro g n id h
    simp [specStore, Graph.GetEdge, (Graph.nodeAdded_absent g n h).2]
  · intro g e h
    simp [specStore, Graph.GetEdge, (Graph.edgeAdded_absent g e h).1]
  · intro g e id h hne
    have hne2 : ¬ e.ID = id := fun h => hne h.symm
    simp [specStore, Graph.GetEdge, (Graph.edgeAdded_absent g e h).1, List.find?_cons, hne2]
  · intro g e id h
    simp [specStore, Graph.GetNode, (Graph.edgeAdded_absent g e h).2]

/-- In a list without repeated keys a lookup by key finds exactly the members
with that key. -/
theorem find?_eq_some_iff_of_nodup {α : Type} (f : α → Identifier) (l : List α)
    (hnd : (l.map f).Nodup) (k : Identifier) (a : α) :
    l.find? (fun x => decide (f x = k)) = some a ↔ a ∈ l ∧ f a = k := by
  constructor
  · intro h
    exact ⟨List.mem_of_find?_eq_some h, by simpa using List.find?_some h⟩
  · rintro ⟨hmem, hk⟩
    cases hf : l.find? (fun x => decide (f x = k)) with
    | none =>
      rw [List.find?_eq_none] at hf
      exact absurd hk (by simpa using hf a hmem)
    | some b =>
      have hb : f b = k := by simpa using List.find?_some hf
      have hbm : b ∈ l := List.mem_of_find?_eq_some hf
      rw [List.inj_on_of_nodup_map hnd hbm hmem (hb.trans hk.symm)]

theorem Graph.getNode_eq_some_iff (g : Graph) (id : Identifier) (m : Node) :
    g.GetNode id = some m ↔ m ∈ g.nodes ∧ m.ID = id :=
  find?_eq_some_iff_of_nodup Node.ID g.nodes g.nodesUnique id m

theorem Graph.getEdge_eq_some_iff (g : Graph) (id : Identifier) (e : Edge) :
    g.GetEdge id = some e ↔ e ∈ g.edges ∧ e.ID = id :=
  find?_eq_some_iff_of_nodup Edge.ID g.edges g.edgesUnique id e

theorem Graph.mem_delOriginGraph_nodes (g : Graph) (o : String) (m : Node) :
    m ∈ (g.DelOriginGraph o).nodes ↔ m ∈ g.nodes ∧ m.Origin ≠ o := by
  simp [Graph.DelOriginGraph]

theorem specStore_originContract : OriginContract specStore := by
  constructor
  · intro g o id h
    cases hd : specStore.GetNode (specStore.DelOriginGraph g o) id with
    | none => rfl
    | some x =>
      have hx := (Graph.getNode_eq_some_iff _ _ _).1 hd
      have hx1 := (Graph.mem_delOriginGraph_nodes g o x).1 hx.1
      exact absurd (h x ((Graph.getNode_eq_some_iff g id x).2 ⟨hx1.1, hx.2⟩)) hx1.2
  · intro g o id m hm hne
    have hx := (Graph.getNode_eq_some_iff g id m).1 hm
    exact (Graph.getNode_eq_some_iff _ _ _).2
      ⟨(Graph.mem_delOriginGraph_nodes g o m).2 ⟨hx.1, hne⟩, hx.2⟩

theorem Graph.ext_lists (g1 g2 : Graph) (hn : g1.nodes = g2.nodes) (he : g1.edges = g2.edges) :
    g1 = g2 := by
  cases g1
  cases g2
  simp only at hn he
  subst hn he
  rfl

theorem Graph.nodeAdded_present (g : Graph) (n m : Node) (h : g.GetNode n.ID = some m) :
    g.NodeAdded n = (g, none) := by
  have hmem : n.ID ∈ g.nodes.map Node.ID := by
    by_contra hc
    rw [(Graph.getNode_eq_none_iff g n.ID).2 hc] at h
    exact absurd h (by simp)
  simp [Graph.NodeAdded, hmem]

theorem Graph.edgeAdded_present (g : Graph) (e d : Edge) (h : g.GetEdge e.ID = some d) :
    g.EdgeAdded e = (g, none) := by
  have hmem : e.ID ∈ g.edges.map Edge.ID := by
    by_contra hc
    rw [(Graph.getEdge_eq_none_iff g e.ID).2 hc] at h
    exact absurd h (by simp)
  simp [Graph.EdgeAdded, hmem]

/-- One node is stored under the ID of a stored node. -/
theorem Graph.count_node_id (g : Graph) (id : Identifier) (m : Node)
    (h : g.GetNode id = some m) : (g.nodes.map Node.ID).count id = 1 := by
  obtain ⟨hmem, hid⟩ := (Graph.getNode_eq_some_iff g id m).1 h
  exact List.count_eq_one_of_mem g.nodesUnique (hid ▸ List.mem_map_of_mem Node.ID hmem)

/-- One edge is stored under the ID of a stored edge. -/
theorem Graph.count_edge_id (g : Graph) (id : Identifier) (e : Edge)
    (h : g.GetEdge id = some e) : (g.edges.map Edge.ID).count id = 1 := by
  obtain ⟨hmem, hid⟩ := (Graph.getEdge_eq_some_iff g id e).1 h
  exact List.count_eq_one_of_mem g.edgesUnique (hid ▸ List.mem_map_of_mem Edge.ID hmem)

theorem Graph.removedBy_eq_true_iff (g : Graph) (o : String) (id : Identifier) :
    g.removedBy o id = true ↔ ∃ n ∈ g.nodes, n.ID = id ∧ n.Origin = o := by
  simp [Graph.removedBy]

theorem Graph.removedBy_delOriginGraph (g : Graph) (o : String) (id : Identifier) :
    (g.DelOriginGraph o).removedBy o id = false := by
  cases h : (g.DelOriginGraph o).removedBy o id with
  | false => rfl
  | true =>
    obtain ⟨n, hn, _, ho⟩ := (Graph.removedBy_eq_true_iff _ _ _).1 h
    exact absurd ho ((Graph.mem_delOriginGraph_nodes g o n).1 hn).2

theorem Graph.mem_delOriginGraph_edges (g : Graph) (o : String) (e : Edge) :
    e ∈ (g.DelOriginGraph o).edges ↔
      e ∈ g.edges ∧ e.Origin ≠ o ∧ g.removedBy o e.Parent = false ∧
        g.removedBy o e.Child = false := by
  simp [Graph.DelOriginGraph, and_assoc]

/-- Deleting an origin twice is deleting it once. -/
theorem Graph.delOriginGraph_idem (g : Graph) (o : String) :
    (g.DelOriginGraph o).DelOriginGraph o = g.DelOriginGraph o := by
  apply Graph.ext_lists
  · show ((g.DelOriginGraph o).nodes.filter _) = (g.DelOriginGraph o).nodes
    rw [List.filter_eq_self]
    intro n hn
    simpa using ((Graph.mem_delOriginGraph_nodes g o n).1 hn).2
  · show ((g.DelOriginGraph o).edges.filter _) = (g.DelOriginGraph o).edges
    rw [List.filter_eq_self]
    intro e he
    have h := (Graph.mem_delOriginGraph_edges g o e).1 he
    simp [Graph.removedBy_delOriginGraph, h.2.1]

theorem Graph.updateNode_id (n m : Node) : (Graph.updateNode n m).ID = m.ID := by
  unfold Graph.updateNode
  split <;> rfl

theorem Graph.nodeUpdated_present (g : Graph) (n old : Node) (h : g.GetNode n.ID = some old) :
    (g.NodeUpdated n).1.nodes = g.nodes.map (Graph.updateNode n) ∧
      (g.NodeUpdated n).1.edges = g.edges ∧ (g.NodeUpdated n).2 = none := by
  have hmem : n.ID ∈ g.nodes.map Node.ID := by
    by_contra hc
    rw [(Graph.getNode_eq_none_iff g n.ID).2 hc] at h
    exact absurd h (by simp)
  simp [Graph.NodeUpdated, hmem]

theorem Graph.getNode_nodeUpdated (g : Graph) (n old : Node) (h : g.GetNode n.ID = some old)
    (id : Identifier) :
    (g.NodeUpdated n).1.GetNode id = (g.GetNode id).map (Graph.updateNode n) := by
  unfold Graph.GetNode
  rw [(Graph.nodeUpdated_present g n old h).1, List.find?_map]
  have hp : ((fun x : Node => decide (x.ID = id)) ∘ Graph.updateNode n)
      = fun x : Node => decide (x.ID = id) := by
    funext x
    simp [Function.comp, Graph.updateNode_id]
  rw [hp]

/-- After a `Sync`/`SyncReply` batch on the store of the specification every
node of the batch has its ID stored. -/
theorem sync_ids_stored {M : Type} (U : M → Except Error (MsgType × Obj))
    (c : Speaker) (g : Graph) (msg : M) (t : MsgType) (b : SyncMsg)
    (ht : t = .SyncMsgType ∨ t = .SyncReplyMsgType) (hU : U msg = .ok (t, .sync b)) :
    ∀ n ∈ b.Nodes, ∃ m, specStore.GetNode (OnStructMessage specStore U c g msg).Graph n.ID
      = some m := by
  intro n hmem
  rw [(OnStructMessage_sync_lookup specStore specStore_addContract U c g msg t b ht hU).1]
  cases specStore.GetNode g n.ID with
  | some m => exact ⟨m, rfl⟩
  | none =>
    obtain ⟨x, hx, _⟩ := find?_isSome_of_mem_id Node.ID b.Nodes n hmem
    exact ⟨x, hx⟩

theorem Graph.nodeUpdated_absent (g : Graph) (n : Node) (h : g.GetNode n.ID = none) :
    (g.NodeUpdated n).1 = g := by
  rw [Graph.getNode_eq_none_iff] at h
  simp [Graph.NodeUpdated, h]

theorem Graph.nodeDeleted_nodes_sublist (g : Graph) (n m : Node)
    (h : m ∈ (g.NodeDeleted n).1.nodes) : m ∈ g.nodes := by
  unfold Graph.NodeDeleted at h
  split at h
  · exact List.mem_of_mem_filter h
  · exact h

theorem Graph.edgeAdded_nodes (g : Graph) (e : Edge) : (g.EdgeAdded e).1.nodes = g.nodes := by
  unfold Graph.EdgeAdded
  split <;> rfl

theorem Graph.edgeUpdated_nodes (g : Graph) (e : Edge) : (g.EdgeUpdated e).1.nodes = g.nodes := by
  unfold Graph.EdgeUpdated
  split <;> rfl

theorem Graph.edgeDeleted_nodes (g : Graph) (e : Edge) : (g.EdgeDeleted e).1.nodes = g.nodes := by
  unfold Graph.EdgeDeleted
  split <;> rfl

theorem specStore_ownerContract : OwnerContract specStore := by
  constructor
  · intro g n id m hm
    cases hn : g.GetNode n.ID with
    | some old =>
      right
      have : specStore.NodeAdded g n = (g, none) := Graph.nodeAdded_present g n old hn
      rw [this] at hm
      exact hm
    | none =>
      have hnodes := (Graph.nodeAdded_absent g n hn).1
      have hm2 : (n :: g.nodes).find? (fun x => decide (x.ID = id)) = some m := by
        rw [← hnodes]; exact hm
      by_cases hid : n.ID = id
      · left
        simp [List.find?_cons, hid] at hm2
        exact ⟨hm2.symm, hid⟩
      · right
        simp [List.find?_cons, hid] at hm2
        exact hm2
  · intro g n id m hm
    cases hn : g.GetNode n.ID with
    | some old =>
      have hget := Graph.getNode_nodeUpdated g n old hn id
      have hm2 : (g.GetNode id).map (Graph.updateNode n) = some m := by
        rw [← hget]; exact hm
      cases hg : g.GetNode id with
      | none => rw [hg] at hm2; exact absurd hm2 (by simp)
      | some m0 =>
        rw [hg] at hm2
        simp only [Option.map_some', Option.some.injEq] at hm2
        refine ⟨m0, hg, ?_⟩
        rw [← hm2]
        unfold Graph.updateNode
        split <;> rfl
    | none =>
      have : (specStore.NodeUpdated g n).1 = g := Graph.nodeUpdated_absent g n hn
      rw [this] at hm
      exact ⟨m, hm, rfl⟩
  · intro g n id m hm
    have h1 := (Graph.getNode_eq_some_iff _ id m).1 hm
    exact (Graph.getNode_eq_some_iff g id m).2 ⟨Graph.nodeDeleted_nodes_sublist g n m h1.1, h1.2⟩
  · intro g e id
    show (g.EdgeAdded e).1.GetNode id = g.GetNode id
    unfold Graph.GetNode
    rw [Graph.edgeAdded_nodes]
  · intro g e id
    show (g.EdgeUpdated e).1.GetNode id = g.GetNode id
    unfold Graph.GetNode
    rw [Graph.edgeUpdated_nodes]
  · intro g e id
    show (g.EdgeDeleted e).1.GetNode id = g.GetNode id
    unfold Graph.GetNode
    rw [Graph.edgeDeleted_nodes]
  · intro g o id m hm
    have h1 := (Graph.getNode_eq_some_iff _ id m).1 hm
    exact (Graph.getNode_eq_some_iff g id m).2
      ⟨((Graph.mem_delOriginGraph_nodes g o m).1 h1.1).1, h1.2⟩

/-! ## Claims settled on the endpoint, for every store -/

/-- C4: when `UnmarshalMessage` returns an error, `OnStructMessage` leaves the
graph as it was, makes no call on the graph (no lookup, no mutation, no lock),
logs the decode error and nothing else, and returns without a panic; its
result does not depend on the connection. -/
theorem C4_decode_error_dropped {G M : Type} (S : GraphStore G)
    (U : M → Except Error (MsgType × Obj)) (c : Speaker) (g : G) (msg : M) (err : Error)
    (h : U msg = .error err) :
    (OnStructMessage S U c g msg).Graph = g ∧
      (OnStructMessage S U c g msg).calls = [] ∧
      (OnStructMessage S U c g msg).log
        = [LogEntry.Errorf "Graph: Unable to parse the event : %s" err] ∧
      (OnStructMessage S U c g msg).panicked = false ∧
      ∀ c2 : Speaker, OnStructMessage S U c2 g msg = OnStructMessage S U c g msg := by
  simp [OnStructMessage, h]

/-- Witness of C4 on the store of the specification: an undecodable envelope
delivered on the graph holding `n1`. -/
theorem C4_decode_error_dropped_witness :
    exampleUnmarshal none = .error (.Decode "malformed") ∧
    ((OnStructMessage specStore exampleUnmarshal ⟨"h1", "agent"⟩
        (Graph.NodeAdded Graph.empty n1).1 none).Graph = (Graph.NodeAdded Graph.empty n1).1 ∧
      (OnStructMessage specStore exampleUnmarshal ⟨"h1", "agent"⟩
        (Graph.NodeAdded Graph.empty n1).1 none).calls = [] ∧
      (OnStructMessage specStore exampleUnmarshal ⟨"h1", "agent"⟩
        (Graph.NodeAdded Graph.empty n1).1 none).log
        = [LogEntry.Errorf "Graph: Unable to parse the event : %s" (.Decode "malformed")] ∧
      (OnStructMessage specStore exampleUnmarshal ⟨"h1", "agent"⟩
        (Graph.NodeAdded Graph.empty n1).1 none).panicked = false ∧
      ∀ c2 : Speaker, OnStructMessage specStore exampleUnmarshal c2
          (Graph.NodeAdded Graph.empty n1).1 none
        = OnStructMessage specStore exampleUnmarshal ⟨"h1", "agent"⟩
          (Graph.NodeAdded Graph.empty n1).1 none) :=
  ⟨rfl, C4_decode_error_dropped specStore exampleUnmarshal ⟨"h1", "agent"⟩
    (Graph.NodeAdded Graph.empty n1).1 none (.Decode "malformed") rfl⟩

theorem handle_lockTrace {G M : Type} (S : GraphStore G)
    (U : M → Except Error (MsgType × Obj)) (g : G) (i : Input M) (rest : List Call) :
    lockTrace false ((handle S U g i).calls ++ rest) = lockTrace false rest := by
  cases i with
  | message c msg =>
    simp only [handle, OnStructMessage]
    cases hU : U msg with
    | error err => simp
    | ok p =>
      obtain ⟨t, obj⟩ := p
      simp only []
      have := lockTrace_section (dispatch S g t obj).calls rest (dispatch_noLock S g t obj)
      simpa using this
  | disconnect c =>
    simp [handle, OnDisconnected, lockTrace]

/-- C10: every call on the graph lies inside a critical section.  For a
decoded message `OnStructMessage` makes one `Lock`, then the calls of the
branch (none of them a lock operation), then one `Unlock`, whatever the calls
return and also when the branch panics; for an undecodable message it makes
no call; `OnDisconnected` makes exactly `Lock`, `DelOriginGraph(origin)`,
`Unlock`; and over any sequence of handler calls a mutex run over the trace
never locks a held lock, never touches the graph without the lock, and ends
released. -/
theorem C10_critical_sections {G M : Type} (S : GraphStore G)
    (U : M → Except Error (MsgType × Obj)) :
    (∀ (c : Speaker) (g : G) (msg : M) (t : MsgType) (obj : Obj), U msg = .ok (t, obj) →
      (OnStructMessage S U c g msg).calls
          = Call.Lock :: (dispatch S g t obj).calls ++ [Call.Unlock] ∧
        (∀ x ∈ (dispatch S g t obj).calls, Call.isLockOp x = false)) ∧
    (∀ (c : Speaker) (g : G) (msg : M) (err : Error), U msg = .error err →
      (OnStructMessage S U c g msg).calls = []) ∧
    (∀ (c : Speaker) (g : G),
      (OnDisconnected S c g).calls
        = [Call.Lock,
           Call.DelOriginGraph (if c.GetRemoteHost.length > 0
             then c.GetServiceType ++ "." ++ c.GetRemoteHost else c.GetServiceType),
           Call.Unlock]) ∧
    (∀ (g : G) (inputs : List (Input M)),
      lockTrace false (run S U g inputs).calls = some false) := by
  refine ⟨?_, ?_, ?_, ?_⟩
  · intro c g msg t obj h
    exact ⟨by simp [OnStructMessage, h], dispatch_noLock S g t obj⟩
  · intro c g msg err h
    simp [OnStructMessage, h]
  · intro c g
    rfl
  · intro g inputs
    induction inputs generalizing g with
    | nil => rfl
    | cons i is ih =>
      simp only [run]
      rw [handle_lockTrace]
      exact ih _

/-- Witness of C10 on the store of the specification: a `Sync` with `n1`, an
undecodable envelope, a `NodeUpdated` whose payload is not a node (the
handler panics after the lock is taken) and a disconnect; every call lies
between a `Lock` and its `Unlock`. -/
theorem C10_critical_sections_witness :
    (run specStore exampleUnmarshal Graph.empty
      [.message agentH1 (some (.SyncMsgType, .sync ⟨[n1], []⟩)),
       .message agentH1 none,
       .message agentH1 (some (.NodeUpdatedMsgType, .str "n1")),
       .disconnect agentH1]).calls
      = [.Lock, .GetNode "n1" false, .NodeAdded n1 none, .Unlock,
         .Lock, .Unlock,
         .Lock, .DelOriginGraph "agent.h1", .Unlock] ∧
    lockTrace false (run specStore exampleUnmarshal Graph.empty
      [.message agentH1 (some (.SyncMsgType, .sync ⟨[n1], []⟩)),
       .message agentH1 none,
       .message agentH1 (some (.NodeUpdatedMsgType, .str "n1")),
       .disconnect agentH1]).calls = some false :=
  ⟨by decide, (C10_critical_sections specStore exampleUnmarshal).2.2.2 Graph.empty _⟩

/-- C6: every failure a store operation returns while a decoded message is
handled is logged.  The error lines of the log are exactly the errors the
calls returned, in order; for each of the six singular kinds a failing
operation gives exactly one error line carrying that error, the handler
returns, and the graph is the one the store returned; and, when a failed
operation leaves the store as it was, any later input is handled as if the
failed message had not been received.  A `Sync`/`SyncReply` batch looks up
every node and every edge of the batch, and each item is processed whatever
the items before it returned: the batch with one more node (or one more edge)
at its end leaves what the shorter batch leaves, followed by the lookup of
that item in the graph the shorter batch left and, when the ID is not stored
there, by its `NodeAdded` (`EdgeAdded`) on that graph, whose error is
logged. -/
theorem C6_store_failures_logged {G M : Type} (S : GraphStore G)
    (U : M → Except Error (MsgType × Obj)) (c : Speaker) (g : G) (msg : M)
    (t : MsgType) (obj : Obj) (hU : U msg = .ok (t, obj)) :
    ((OnStructMessage S U c g msg).log.filter LogEntry.isError
        = ((OnStructMessage S U c g msg).calls.filterMap Call.err).map LogEntry.Error) ∧
    (∀ n e, t = .NodeUpdatedMsgType → obj = .node n → (S.NodeUpdated g n).2 = some e →
      (OnStructMessage S U c g msg).calls = [.Lock, .NodeUpdated n (some e), .Unlock] ∧
      (OnStructMessage S U c g msg).log = [.Error e] ∧
      (OnStructMessage S U c g msg).panicked = false ∧
      (OnStructMessage S U c g msg).Graph = (S.NodeUpdated g n).1 ∧
      (FailureKeepsGraph S → (OnStructMessage S U c g msg).Graph = g ∧
        ∀ i, handle S U (OnStructMessage S U c g msg).Graph i = handle S U g i)) ∧
    (∀ n e, t = .NodeDeletedMsgType → obj = .node n → (S.NodeDeleted g n).2 = some e →
      (OnStructMessage S U c g msg).calls = [.Lock, .NodeDeleted n (some e), .Unlock] ∧
      (OnStructMessage S U c g msg).log = [.Error e] ∧
      (OnStructMessage S U c g msg).panicked = false ∧
      (OnStructMessage S U c g msg).Graph = (S.NodeDeleted g n).1 ∧
      (FailureKeepsGraph S → (OnStructMessage S U c g msg).Graph = g ∧
        ∀ i, handle S U (OnStructMessage S U c g msg).Graph i = handle S U g i)) ∧
    (∀ n e, t = .NodeAddedMsgType → obj = .node n → (S.NodeAdded g n).2 = some e →
      (OnStructMessage S U c g msg).calls = [.Lock, .NodeAdded n (some e), .Unlock] ∧
      (OnStructMessage S U c g msg).log = [.Error e] ∧
      (OnStructMessage S U c g msg).panicked = false ∧
      (OnStructMessage S U c g msg).Graph = (S.NodeAdded g n).1 ∧
      (FailureKeepsGraph S → (OnStructMessage S U c g msg).Graph = g ∧
        ∀ i, handle S U (OnStructMessage S U c g msg).Graph i = handle S U g i)) ∧
    (∀ d e, t = .EdgeUpdatedMsgType → obj = .edge d → (S.EdgeUpdated g d).2 = some e →
      (OnStructMessage S U c g msg).calls = [.Lock, .EdgeUpdated d (some e), .Unlock] ∧
      (OnStructMessage S U c g msg).log = [.Error e] ∧
      (OnStructMessage S U c g msg).panicked = false ∧
      (OnStructMessage S U c g msg).Graph = (S.EdgeUpdated g d).1 ∧
      (FailureKeepsGraph S → (OnStructMessage S U c g msg).Graph = g ∧
        ∀ i, handle S U (OnStructMessage S U c g msg).Graph i = handle S U g i)) ∧
    (∀ d e, t = .EdgeDeletedMsgType → obj = .edge d → (S.EdgeDeleted g d).2 = some e →
      (OnStructMessage S U c g msg).calls = [.Lock, .EdgeDeleted d (some e), .Unlock] ∧
      (OnStructMessage S U c g msg).log = [.Error e] ∧
      (OnStructMessage S U c g msg).panicked = false ∧
      (OnStructMessage S U c g msg).Graph = (S.EdgeDeleted g d).1 ∧
      (FailureKeepsGraph S → (OnStructMessage S U c g msg).Graph = g ∧
        ∀ i, handle S U (OnStructMessage S U c g msg).Graph i = handle S U g i)) ∧
    (∀ d e, t = .EdgeAddedMsgType → obj = .edge d → (S.EdgeAdded g d).2 = some e →
      (OnStructMessage S U c g msg).calls = [.Lock, .EdgeAdded d (some e), .Unlock] ∧
      (OnStructMessage S U c g msg).log = [.Error e] ∧
      (OnStructMessage S U c g msg).panicked = false ∧
      (OnStructMessage S U c g msg).Graph = (S.EdgeAdded g d).1 ∧
      (FailureKeepsGraph S → (OnStructMessage S U c g msg).Graph = g ∧
        ∀ i, handle S U (OnStructMessage S U c g msg).Graph i = handle S U g i)) ∧
    (∀ r, (t = .SyncMsgType ∨ t = .SyncReplyMsgType) → obj = .sync r →
      (OnStructMessage S U c g msg).panicked = false ∧
      (OnStructMessage S U c g msg).calls.filterMap Call.nodeLookup = r.Nodes.map Node.ID ∧
      (OnStructMessage S U c g msg).calls.filterMap Call.edgeLookup = r.Edges.map Edge.ID) ∧
    (∀ (mP : M) (tP : MsgType), (tP = .SyncMsgType ∨ tP = .SyncReplyMsgType) →
      U mP = .ok (tP, .sync ⟨[], []⟩) →
      (OnStructMessage S U c g mP).Graph = g ∧
      (OnStructMessage S U c g mP).log = [] ∧
      (OnStructMessage S U c g mP).calls = [.Lock, .Unlock]) ∧
    (∀ (mP mQ : M) (tP tQ : MsgType) (ns : List Node) (n : Node),
      (tP = .SyncMsgType ∨ tP = .SyncReplyMsgType) →
      (tQ = .SyncMsgType ∨ tQ = .SyncReplyMsgType) →
      U mP = .ok (tP, .sync ⟨ns, []⟩) → U mQ = .ok (tQ, .sync ⟨ns ++ [n], []⟩) →
      (∀ m, S.GetNode (OnStructMessage S U c g mP).Graph n.ID = some m →
        (OnStructMessage S U c g mQ).Graph = (OnStructMessage S U c g mP).Graph ∧
        (OnStructMessage S U c g mQ).log = (OnStructMessage S U c g mP).log ∧
        (OnStructMessage S U c g mQ).calls
          = (OnStructMessage S U c g mP).calls.dropLast ++ [.GetNode n.ID true, .Unlock]) ∧
      (S.GetNode (OnStructMessage S U c g mP).Graph n.ID = none →
        (OnStructMessage S U c g mQ).Graph
          = (S.NodeAdded (OnStructMessage S U c g mP).Graph n).1 ∧
        (OnStructMessage S U c g mQ).log
          = (OnStructMessage S U c g mP).log
            ++ logError (S.NodeAdded (OnStructMessage S U c g mP).Graph n).2 ∧
        (OnStructMessage S U c g mQ).calls
          = (OnStructMessage S U c g mP).calls.dropLast
            ++ [.GetNode n.ID false,
                .NodeAdded n (S.NodeAdded (OnStructMessage S U c g mP).Graph n).2,
                .Unlock])) ∧
    (∀ (mP mQ : M) (tP tQ : MsgType) (ns : List Node) (es : List Edge) (d : Edge),
      (tP = .SyncMsgType ∨ tP = .SyncReplyMsgType) →
      (tQ = .SyncMsgType ∨ tQ = .SyncReplyMsgType) →
      U mP = .ok (tP, .sync ⟨ns, es⟩) → U mQ = .ok (tQ, .sync ⟨ns, es ++ [d]⟩) →
      (∀ m, S.GetEdge (OnStructMessage S U c g mP).Graph d.ID = some m →
        (OnStructMessage S U c g mQ).Graph = (OnStructMessage S U c g mP).Graph ∧
        (OnStructMessage S U c g mQ).log = (OnStructMessage S U c g mP).log ∧
        (OnStructMessage S U c g mQ).calls
          = (OnStructMessage S U c g mP).calls.dropLast ++ [.GetEdge d.ID true, .Unlock]) ∧
      (S.GetEdge (OnStructMessage S U c g mP).Graph d.ID = none →
        (OnStructMessage S U c g mQ).Graph
          = (S.EdgeAdded (OnStructMessage S U c g mP).Graph d).1 ∧
        (OnStructMessage S U c g mQ).log
          = (OnStructMessage S U c g mP).log
            ++ logError (S.EdgeAdded (OnStructMessage S U c g mP).Graph d).2 ∧
        (OnStructMessage S U c g mQ).calls
          = (OnStructMessage S U c g mP).calls.dropLast
            ++ [.GetEdge d.ID false,
                .EdgeAdded d (S.EdgeAdded (OnStructMessage S U c g mP).Graph d).2,
                .Unlock])) := by
  refine ⟨?_, ?_, ?_, ?_, ?_, ?_, ?_, ?_, ?_, ?_, ?_⟩
  · have h := dispatch_errorsLogged S g t obj
    unfold Branch.errorsLogged at h
    simp only [OnStructMessage, hU]
    cases hp : (dispatch S g t obj).panicked
    · simp only [Bool.false_eq_true, if_false, List.filter_append, filter_isError_logError,
        List.filterMap_append, List.filterMap_cons, Call.err, List.filterMap_nil,
        List.append_nil, List.nil_append]
      exact h
    · obtain ⟨h1, h2, _, _⟩ := dispatch_panicked S g t obj hp
      simp [h1, h2, Call.err]
  · intro n e ht ho he
    subst ht ho
    have hgr : (OnStructMessage S U c g msg).Graph = (S.NodeUpdated g n).1 := by
      simp [OnStructMessage, hU, dispatch]
    refine ⟨?_, ?_, ?_, hgr, fun hS => ?_⟩
    · simp [OnStructMessage, hU, dispatch, he]
    · simp [OnStructMessage, hU, dispatch, he, logError]
    · simp [OnStructMessage, hU, dispatch]
    · have hg : (OnStructMessage S U c g msg).Graph = g := hgr.trans (hS.nodeUpdated g n e he)
      exact ⟨hg, fun i => by rw [hg]⟩
  · intro n e ht ho he
    subst ht ho
    have hgr : (OnStructMessage S U c g msg).Graph = (S.NodeDeleted g n).1 := by
      simp [OnStructMessage, hU, dispatch]
    refine ⟨?_, ?_, ?_, hgr, fun hS => ?_⟩
    · simp [OnStructMessage, hU, dispatch, he]
    · simp [OnStructMessage, hU, dispatch, he, logError]
    · simp [OnStructMessage, hU, dispatch]
    · have hg : (OnStructMessage S U c g msg).Graph = g := hgr.trans (hS.nodeDeleted g n e he)
      exact ⟨hg, fun i => by rw [hg]⟩
  · intro n e ht ho he
    subst ht ho
    have hgr : (OnStructMessage S U c g msg).Graph = (S.NodeAdded g n).1 := by
      simp [OnStructMessage, hU, dispatch]
    refine ⟨?_, ?_, ?_, hgr, fun hS => ?_⟩
    · simp [OnStructMessage, hU, dispatch, he]
    · simp [OnStructMessage, hU, dispatch, he, logError]
    · simp [OnStructMessage, hU, dispatch]
    · have hg : (OnStructMessage S U c g msg).Graph = g := hgr.trans (hS.nodeAdded g n e he)
      exact ⟨hg, fun i => by rw [hg]⟩
  · intro d e ht ho he
    subst ht ho
    have hgr : (OnStructMessage S U c g msg).Graph = (S.EdgeUpdated g d).1 := by
      simp [OnStructMessage, hU, dispatch]
    refine ⟨?_, ?_, ?_, hgr, fun hS => ?_⟩
    · simp [OnStructMessage, hU, dispatch, he]
    · simp [OnStructMessage, hU, dispatch, he, logError]
    · simp [OnStructMessage, hU, dispatch]
    · have hg : (OnStructMessage S U c g msg).Graph = g := hgr.trans (hS.edgeUpdated g d e he)
      exact ⟨hg, fun i => by rw [hg]⟩
  · intro d e ht ho he
    subst ht ho
    have hgr : (OnStructMessage S U c g msg).Graph = (S.EdgeDeleted g d).1 := by
      simp [OnStructMessage, hU, dispatch]
    refine ⟨?_, ?_, ?_, hgr, fun hS => ?_⟩
    · simp [OnStructMessage, hU, dispatch, he]
    · simp [OnStructMessage, hU, dispatch, he, logError]
    · simp [OnStructMessage, hU, dispatch]
    · have hg : (OnStructMessage S U c g msg).Graph = g := hgr.trans (hS.edgeDeleted g d e he)
      exact ⟨hg, fun i => by rw [hg]⟩
  · intro d e ht ho he
    subst ht ho
    have hgr : (OnStructMessage S U c g msg).Graph = (S.EdgeAdded g d).1 := by
      simp [OnStructMessage, hU, dispatch]
    refine ⟨?_, ?_, ?_, hgr, fun hS => ?_⟩
    · simp [OnStructMessage, hU, dispatch, he]
    · simp [OnStructMessage, hU, dispatch, he, logError]
    · simp [OnStructMessage, hU, dispatch]
    · have hg : (OnStructMessage S U c g msg).Graph = g := hgr.trans (hS.edgeAdded g d e he)
      exact ⟨hg, fun i => by rw [hg]⟩
  · intro r ht ho
    subst ho
    have h1 := foldl_syncEdge_lookups S r.Edges (r.Nodes.foldl (syncNode S)
      { Graph := g, calls := [], log := [], err := none, panicked := false })
    have h2 := foldl_syncNode_lookups S r.Nodes
      { Graph := g, calls := [], log := [], err := none, panicked := false }
    rcases ht with ht | ht <;> subst ht <;>
      simp [OnStructMessage, hU, dispatch, foldl_syncEdge_panicked, foldl_syncNode_panicked,
        h1.1, h1.2, h2.1, h2.2, Call.nodeLookup, Call.edgeLookup]
  · intro mP tP htP hP
    obtain ⟨h1, h2, h3⟩ := OnStructMessage_sync_eq S U c g mP tP _ htP hP
    exact ⟨h1, h3, h2⟩
  · intro mP mQ tP tQ ns n htP htQ hP hQ
    obtain ⟨p1, p2, p3⟩ := OnStructMessage_sync_eq S U c g mP tP _ htP hP
    obtain ⟨q1, q2, q3⟩ := OnStructMessage_sync_eq S U c g mQ tQ _ htQ hQ
    simp only [List.foldl_nil, List.foldl_append, List.foldl_cons] at p1 p2 p3 q1 q2 q3
    rw [p1, p2, p3, q1, q2, q3, dropLast_lock_unlock, dropLast_lock_unlock]
    constructor
    · intro m hm
      simp [syncNode, hm]
    · intro hm
      simp [syncNode, hm]
  · intro mP mQ tP tQ ns es d htP htQ hP hQ
    obtain ⟨p1, p2, p3⟩ := OnStructMessage_sync_eq S U c g mP tP _ htP hP
    obtain ⟨q1, q2, q3⟩ := OnStructMessage_sync_eq S U c g mQ tQ _ htQ hQ
    simp only [List.foldl_nil, List.foldl_append, List.foldl_cons] at p1 p2 p3 q1 q2 q3
    rw [p1, p2, p3, q1, q2, q3, dropLast_lock_unlock, dropLast_lock_unlock]
    constructor
    · intro m hm
      simp [syncEdge, hm]
    · intro hm
      simp [syncEdge, hm]

/-- Witness of C6.  On the store of the specification an update of the node
`n1`, which the empty graph does not hold, fails with `NotFound`; the failure
is logged once, the graph stays empty, and a following `Sync` is handled as
on the empty graph.  On a store that refuses `n1`, the `Sync` batch
`[n1, n2]` logs the refusal of `n1` and still adds `n2`. -/
theorem C6_store_failures_logged_witness :
    exampleUnmarshal (some (.NodeUpdatedMsgType, .node n1)) = .ok (.NodeUpdatedMsgType, .node n1) ∧
    (specStore.NodeUpdated Graph.empty n1).2 = some (.NotFound "n1") ∧
    FailureKeepsGraph specStore ∧
    (OnStructMessage specStore exampleUnmarshal agentH1 Graph.empty
      (some (.NodeUpdatedMsgType, .node n1))).log = [.Error (.NotFound "n1")] ∧
    (OnStructMessage specStore exampleUnmarshal agentH1 Graph.empty
      (some (.NodeUpdatedMsgType, .node n1))).Graph = Graph.empty ∧
    handle specStore exampleUnmarshal
        (OnStructMessage specStore exampleUnmarshal agentH1 Graph.empty
          (some (.NodeUpdatedMsgType, .node n1))).Graph
        (.message agentH1 (some (.SyncMsgType, .sync ⟨[n1], []⟩)))
      = handle specStore exampleUnmarshal Graph.empty
        (.message agentH1 (some (.SyncMsgType, .sync ⟨[n1], []⟩))) ∧
    (OnStructMessage refusingStore exampleUnmarshal agentH1 Graph.empty
      (some (.SyncMsgType, .sync ⟨[n1], []⟩))).log = [.Error (.Store "refused")] ∧
    (OnStructMessage refusingStore exampleUnmarshal agentH1 Graph.empty
      (some (.SyncMsgType, .sync ⟨[n1, n2], []⟩))).Graph
      = (refusingStore.NodeAdded (OnStructMessage refusingStore exampleUnmarshal agentH1
          Graph.empty (some (.SyncMsgType, .sync ⟨[n1], []⟩))).Graph n2).1 ∧
    (OnStructMessage refusingStore exampleUnmarshal agentH1 Graph.empty
      (some (.SyncMsgType, .sync ⟨[n1, n2], []⟩))).Graph.nodes = [n2] ∧
    (OnStructMessage refusingStore exampleUnmarshal agentH1 Graph.empty
      (some (.SyncMsgType, .sync ⟨[n1, n2], []⟩))).log = [.Error (.Store "refused")] ∧
    (OnStructMessage refusingStore exampleUnmarshal agentH1 Graph.empty
      (some (.SyncMsgType, .sync ⟨[n1, n2], []⟩))).calls
      = [.Lock, .GetNode "n1" false, .NodeAdded n1 (some (.Store "refused")),
         .GetNode "n2" false, .NodeAdded n2 none, .Unlock] :=
  have h := (C6_store_failures_logged specStore exampleUnmarshal agentH1 Graph.empty
    (some (.NodeUpdatedMsgType, .node n1)) .NodeUpdatedMsgType (.node n1) rfl).2.1
    n1 (.NotFound "n1") rfl rfl rfl
  have hb := ((C6_store_failures_logged refusingStore exampleUnmarshal agentH1 Graph.empty
    (some (.SyncMsgType, .sync ⟨[n1, n2], []⟩)) .SyncMsgType (.sync ⟨[n1, n2], []⟩)
    rfl).2.2.2.2.2.2.2.2.2.1
    (some (.SyncMsgType, .sync ⟨[n1], []⟩)) (some (.SyncMsgType, .sync ⟨[n1, n2], []⟩))
    .SyncMsgType .SyncMsgType [n1] n2 (Or.inl rfl) (Or.inl rfl) rfl rfl).2 (by decide)
  ⟨rfl, rfl, specStore_failureKeepsGraph, h.2.1,
    (h.2.2.2.2 specStore_failureKeepsGraph).1,
    (h.2.2.2.2 specStore_failureKeepsGraph).2 _,
    by decide, hb.1, by decide, by decide, by decide⟩

/-- C1: handling a `Sync` or `SyncReply` batch twice gives the same graph as
handling it once (the second delivery may come as the other of the two
kinds); after the batch a lookup of any ID returns what was stored first
under it (the node the graph held before, or else the first node of the batch
with that ID), so every node of the batch has its ID stored, with one node
under it; the same for edges.  The store is any store whose `NodeAdded` and
`EdgeAdded` insert an ID that is not stored and touch nothing else. -/
theorem C1_sync_idempotent {G M : Type} (S : GraphStore G) (hS : AddContract S)
    (U : M → Except Error (MsgType × Obj)) (c c2 : Speaker) (g : G) (msg msg2 : M)
    (t t2 : MsgType) (b : SyncMsg)
    (ht : t = .SyncMsgType ∨ t = .SyncReplyMsgType) (hU : U msg = .ok (t, .sync b))
    (ht2 : t2 = .SyncMsgType ∨ t2 = .SyncReplyMsgType) (hU2 : U msg2 = .ok (t2, .sync b)) :
    (OnStructMessage S U c2 (OnStructMessage S U c g msg).Graph msg2).Graph
        = (OnStructMessage S U c g msg).Graph ∧
    (∀ id, S.GetNode (OnStructMessage S U c g msg).Graph id
      = match S.GetNode g id with
        | some m => some m
        | none => b.Nodes.find? (fun x => decide (x.ID = id))) ∧
    (∀ n ∈ b.Nodes, ∃! m, S.GetNode (OnStructMessage S U c g msg).Graph n.ID = some m) ∧
    (∀ id, S.GetEdge (OnStructMessage S U c g msg).Graph id
      = match S.GetEdge g id with
        | some m => some m
        | none => b.Edges.find? (fun x => decide (x.ID = id))) ∧
    (∀ e ∈ b.Edges, ∃! d, S.GetEdge (OnStructMessage S U c g msg).Graph e.ID = some d) := by
  obtain ⟨hn, he⟩ := OnStructMessage_sync_lookup S hS U c g msg t b ht hU
  have hnp : ∀ n ∈ b.Nodes, ∃ m, S.GetNode (OnStructMessage S U c g msg).Graph n.ID = some m := by
    intro n hmem
    rw [hn]
    cases S.GetNode g n.ID with
    | some m => exact ⟨m, rfl⟩
    | none =>
      obtain ⟨x, hx, _⟩ := find?_isSome_of_mem_id Node.ID b.Nodes n hmem
      exact ⟨x, hx⟩
  have hep : ∀ e ∈ b.Edges, ∃ d, S.GetEdge (OnStructMessage S U c g msg).Graph e.ID = some d := by
    intro e hmem
    rw [he]
    cases S.GetEdge g e.ID with
    | some m => exact ⟨m, rfl⟩
    | none =>
      obtain ⟨x, hx, _⟩ := find?_isSome_of_mem_id Edge.ID b.Edges e hmem
      exact ⟨x, hx⟩
  refine ⟨?_, hn, ?_, he, ?_⟩
  · rw [OnStructMessage_sync_graph S U c2 _ msg2 t2 b ht2 hU2]
    have h1 : (b.Nodes.foldl (syncNode S)
        { Graph := (OnStructMessage S U c g msg).Graph, calls := [], log := [], err := none,
          panicked := false }).Graph = (OnStructMessage S U c g msg).Graph := by
      rw [foldl_syncNode_present]
      intro n hmem
      obtain ⟨m, hm⟩ := hnp n hmem
      simp [hm]
    rw [foldl_syncEdge_present, h1]
    intro e hmem
    rw [h1]
    obtain ⟨d, hd⟩ := hep e hmem
    simp [hd]
  · intro n hmem
    obtain ⟨m, hm⟩ := hnp n hmem
    exact ⟨m, hm, fun y hy => Option.some.inj (hy.symm.trans hm)⟩
  · intro e hmem
    obtain ⟨d, hd⟩ := hep e hmem
    exact ⟨d, hd, fun y hy => Option.some.inj (hy.symm.trans hd)⟩

/-- Witness of C1 on the store of the specification: the graph holds `n1`
with metadata `{a: 1}`; the batch carries `n1` with metadata `{a: 2}`, `n2`
twice and the edge `e1`.  One node is stored per ID, `n1` keeps `{a: 1}`, and
a second delivery, as a `SyncReply`, changes nothing. -/
theorem C1_sync_idempotent_witness :
    AddContract specStore ∧
    exampleUnmarshal (some (.SyncMsgType, .sync ⟨[n1b, n2, { n2 with Revision := 9 }], [e1]⟩))
      = .ok (.SyncMsgType, .sync ⟨[n1b, n2, { n2 with Revision := 9 }], [e1]⟩) ∧
    (OnStructMessage specStore exampleUnmarshal agentH1 graphN1
      (some (.SyncMsgType, .sync ⟨[n1b, n2, { n2 with Revision := 9 }], [e1]⟩))).Graph.nodes
      = [n2, n1] ∧
    (OnStructMessage specStore exampleUnmarshal agentH1 graphN1
      (some (.SyncMsgType, .sync ⟨[n1b, n2, { n2 with Revision := 9 }], [e1]⟩))).Graph.edges
      = [e1] ∧
    (OnStructMessage specStore exampleUnmarshal agentH1
      (OnStructMessage specStore exampleUnmarshal agentH1 graphN1
        (some (.SyncMsgType, .sync ⟨[n1b, n2, { n2 with Revision := 9 }], [e1]⟩))).Graph
      (some (.SyncReplyMsgType, .sync ⟨[n1b, n2, { n2 with Revision := 9 }], [e1]⟩))).Graph
      = (OnStructMessage specStore exampleUnmarshal agentH1 graphN1
        (some (.SyncMsgType, .sync ⟨[n1b, n2, { n2 with Revision := 9 }], [e1]⟩))).Graph :=
  ⟨specStore_addContract, rfl, by decide, by decide,
    (C1_sync_idempotent specStore specStore_addContract exampleUnmarshal agentH1 agentH1 graphN1
      (some (.SyncMsgType, .sync ⟨[n1b, n2, { n2 with Revision := 9 }], [e1]⟩))
      (some (.SyncReplyMsgType, .sync ⟨[n1b, n2, { n2 with Revision := 9 }], [e1]⟩))
      .SyncMsgType .SyncReplyMsgType ⟨[n1b, n2, { n2 with Revision := 9 }], [e1]⟩
      (Or.inl rfl) rfl (Or.inr rfl) rfl).1⟩

/-- C3 (amended): `OnDisconnected` calls `DelOriginGraph` exactly once, under
the lock, with the origin of the specification: the service type when the
host is empty, the service type followed by `"."` and the host otherwise, so
that service type `"agent"` and host `"h1"` give `"agent.h1"`.  After the
disconnect the lookup of an ID is absent exactly when the node stored under
the ID at the disconnect, if any, has the connection's origin.  That is so
whatever was handled before (a `Sync` carrying the ID with the connection's
origin, followed by any other traffic) when the graph stored no node of
another origin under the ID to begin with and no `Sync`, `SyncReply` or
`NodeAdded` message handled before the disconnect carried a node with that
ID and another origin. -/
theorem C3_disconnect_purges_origin {G M : Type} (S : GraphStore G)
    (U : M → Except Error (MsgType × Obj)) (c : Speaker) (g : G) :
    (OnDisconnected S c g).calls
        = [.Lock, .DelOriginGraph (specOrigin c.GetServiceType c.GetRemoteHost), .Unlock] ∧
    (OnDisconnected S c g).Graph
        = S.DelOriginGraph g (specOrigin c.GetServiceType c.GetRemoteHost) ∧
    (c.GetRemoteHost = "" → specOrigin c.GetServiceType c.GetRemoteHost = c.GetServiceType) ∧
    (c.GetRemoteHost ≠ "" → specOrigin c.GetServiceType c.GetRemoteHost
        = c.GetServiceType ++ "." ++ c.GetRemoteHost) ∧
    specOrigin "agent" "h1" = "agent.h1" ∧
    (OriginContract S → ∀ id : Identifier,
      (S.GetNode (OnDisconnected S c g).Graph id = none ↔
        ∀ m, S.GetNode g id = some m →
          m.Origin = specOrigin c.GetServiceType c.GetRemoteHost)) ∧
    (OwnerContract S → OriginContract S →
      ∀ (inputs : List (Input M)) (id : Identifier),
      (∀ m, S.GetNode g id = some m → m.Origin = specOrigin c.GetServiceType c.GetRemoteHost) →
      (∀ i ∈ inputs, ∀ c2 msg t obj, i = Input.message c2 msg → U msg = .ok (t, obj) →
        ∀ x ∈ addedNodes t obj, x.ID = id →
          x.Origin = specOrigin c.GetServiceType c.GetRemoteHost) →
      S.GetNode (OnDisconnected S c (run S U g inputs).Graph).Graph id = none) := by
  refine ⟨(OnDisconnected_eq S c g).2.1, (OnDisconnected_eq S c g).1, ?_, ?_, by decide, ?_, ?_⟩
  · intro h
    simp [specOrigin, h]
  · intro h
    simp [specOrigin, h]
  · intro hO id
    rw [(OnDisconnected_eq S c g).1]
    constructor
    · intro hnone m hm
      by_contra hne
      rw [hO.getNode_delOrigin_ne g _ id m hm hne] at hnone
      exact absurd hnone (by simp)
    · intro h
      exact hO.getNode_delOrigin g _ id h
  · intro hW hO inputs id hg hin
    rw [(OnDisconnected_eq S c _).1]
    apply hO.getNode_delOrigin
    exact run_owned S hW U id _ inputs g hin hg

/-- Witness of C3 on the store of the specification: the agent `"agent"` on
host `"h1"` sends a `Sync` with the node `n1` on the empty graph; a
`NodeUpdated` of `n1`, an undecodable envelope, a `Sync` of another agent with
`m1` and an `EdgeAdded` follow; then the agent disconnects.  The deletion is
called once with `"agent.h1"`, `n1` was stored before it and is gone after
it, and `m1` stays. -/
theorem C3_disconnect_purges_origin_witness :
    OwnerContract specStore ∧ OriginContract specStore ∧
    (OnDisconnected specStore agentH1 Graph.empty).calls
      = [.Lock, .DelOriginGraph "agent.h1", .Unlock] ∧
    specStore.GetNode (run specStore exampleUnmarshal Graph.empty
        [.message agentH1 (some (.SyncMsgType, .sync ⟨[n1], []⟩)),
         .message agentH1 (some (.NodeUpdatedMsgType, .node n1b)),
         .message agentH1 none,
         .message ⟨"h2", "agentB"⟩ (some (.SyncMsgType, .sync ⟨[m1], []⟩)),
         .message agentH1 (some (.EdgeAddedMsgType, .edge e1))]).Graph "n1" = some n1b ∧
    specStore.GetNode (OnDisconnected specStore agentH1
      (run specStore exampleUnmarshal Graph.empty
        [.message agentH1 (some (.SyncMsgType, .sync ⟨[n1], []⟩)),
         .message agentH1 (some (.NodeUpdatedMsgType, .node n1b)),
         .message agentH1 none,
         .message ⟨"h2", "agentB"⟩ (some (.SyncMsgType, .sync ⟨[m1], []⟩)),
         .message agentH1 (some (.EdgeAddedMsgType, .edge e1))]).Graph).Graph "m1" = some m1 ∧
    specStore.GetNode (OnDisconnected specStore agentH1
      (run specStore exampleUnmarshal Graph.empty
        [.message agentH1 (some (.SyncMsgType, .sync ⟨[n1], []⟩)),
         .message agentH1 (some (.NodeUpdatedMsgType, .node n1b)),
         .message agentH1 none,
         .message ⟨"h2", "agentB"⟩ (some (.SyncMsgType, .sync ⟨[m1], []⟩)),
         .message agentH1 (some (.EdgeAddedMsgType, .edge e1))]).Graph).Graph "n1" = none :=
  ⟨specStore_ownerContract, specStore_originContract,
    (C3_disconnect_purges_origin specStore exampleUnmarshal agentH1 Graph.empty).1,
    by decide, by decide,
    (C3_disconnect_purges_origin specStore exampleUnmarshal agentH1 Graph.empty).2.2.2.2.2.2
      specStore_ownerContract specStore_originContract _ "n1" (by decide)
      (by
        intro i hi c2 msg t obj hi2 hU x hx hid
        simp only [List.mem_cons, List.mem_singleton, List.not_mem_nil, or_false] at hi
        rcases hi with rfl | rfl | rfl | rfl | rfl <;> cases hi2 <;>
          simp only [exampleUnmarshal, Except.ok.injEq, Prod.mk.injEq, reduceCtorEq] at hU <;>
          obtain ⟨rfl, rfl⟩ := hU <;>
          simp only [addedNodes, List.mem_singleton, List.not_mem_nil] at hx <;>
          subst hx <;>
          first
          | rfl
          | exact absurd hid (by decide))⟩

/-- Counterexample to C3 as stated, twice.  First, the graph stores a node
with ID `"n1"` owned by `"agentB.h2"`: the agent `"agent"` on host `"h1"`
sends a `Sync` carrying a node with ID `"n1"` and origin `"agent.h1"`; the ID
is stored, so the handler does not add it, and after the disconnect, which
deletes the origin `"agent.h1"`, `GetNode("n1")` still returns the stored
node.  Second, from the empty graph, the `Sync` carries under the ID `"n1"`
first a node of origin `"agentB.h2"` and then the node of origin
`"agent.h1"`: only the first is added, and it survives the disconnect. -/
theorem C3_sync_then_disconnect_counterexample :
    (exampleUnmarshal (some (.SyncMsgType, .sync ⟨[n1], []⟩))
      = .ok (.SyncMsgType, .sync ⟨[n1], []⟩) ∧
    n1.ID = "n1" ∧ n1.Origin = "agent.h1" ∧
    (OnDisconnected specStore agentH1
      (OnStructMessage specStore exampleUnmarshal agentH1 graphForeign
        (some (.SyncMsgType, .sync ⟨[n1], []⟩))).Graph).calls
      = [.Lock, .DelOriginGraph "agent.h1", .Unlock] ∧
    specStore.GetNode (OnDisconnected specStore agentH1
      (OnStructMessage specStore exampleUnmarshal agentH1 graphForeign
        (some (.SyncMsgType, .sync ⟨[n1], []⟩))).Graph).Graph "n1" = some n1foreign) ∧
    (exampleUnmarshal (some (.SyncMsgType, .sync ⟨[n1foreign, n1], []⟩))
      = .ok (.SyncMsgType, .sync ⟨[n1foreign, n1], []⟩) ∧
    n1 ∈ [n1foreign, n1] ∧
    specStore.GetNode (OnDisconnected specStore agentH1
      (OnStructMessage specStore exampleUnmarshal agentH1 Graph.empty
        (some (.SyncMsgType, .sync ⟨[n1foreign, n1], []⟩))).Graph).Graph "n1"
      = some n1foreign) :=
  ⟨⟨rfl, rfl, rfl, by decide, by decide⟩, ⟨rfl, by decide, by decide⟩⟩

/-- C9 (amended): two origins `a ≠ b`, a batch `A` of nodes of origin `a` and
a batch `B` of nodes of origin `b` with disjoint ID sets.  After both batches
are handled, in either order, the ID of every node of both batches is stored
and holds the node stored first under it (the node the graph held, or else
the first node of the batches with that ID); both orders store the same node
under every ID; so a node of a batch is present itself when its ID was not
stored before and no earlier node of its batch has the same ID.  A following
deletion of the origin `a`, by an `OriginGraphDeleted(a)` message or by the
disconnect of a connection whose origin is `a`, leaves every stored node of
origin `b` stored and unchanged, whatever the graph; in particular the nodes
batch `B` stored are still returned, and the nodes batch `A` stored are
gone. -/
theorem C9_cross_origin_isolation {G M : Type} (S : GraphStore G) (hA : AddContract S)
    (hO : OriginContract S) (U : M → Except Error (MsgType × Obj))
    (cA cB : Speaker) (g : G) (msgA msgB msgD : M) (tA tB : MsgType) (A B : SyncMsg)
    (a b : String) (hab : a ≠ b)
    (htA : tA = .SyncMsgType ∨ tA = .SyncReplyMsgType) (hUA : U msgA = .ok (tA, .sync A))
    (htB : tB = .SyncMsgType ∨ tB = .SyncReplyMsgType) (hUB : U msgB = .ok (tB, .sync B))
    (hUD : U msgD = .ok (.OriginGraphDeletedMsgType, .str a))
    (hcA : specOrigin cA.GetServiceType cA.GetRemoteHost = a)
    (hoA : ∀ n ∈ A.Nodes, n.Origin = a) (hoB : ∀ n ∈ B.Nodes, n.Origin = b)
    (hdisj : ∀ x ∈ A.Nodes, ∀ y ∈ B.Nodes, x.ID ≠ y.ID) :
    (∀ id,
      S.GetNode (OnStructMessage S U cB (OnStructMessage S U cA g msgA).Graph msgB).Graph id
        = match S.GetNode g id with
          | some m => some m
          | none =>
            match A.Nodes.find? (fun x => decide (x.ID = id)) with
            | some m => some m
            | none => B.Nodes.find? (fun x => decide (x.ID = id))) ∧
    (∀ id,
      S.GetNode (OnStructMessage S U cB (OnStructMessage S U cA g msgA).Graph msgB).Graph id
        = S.GetNode (OnStructMessage S U cA (OnStructMessage S U cB g msgB).Graph msgA).Graph id) ∧
    (∀ n ∈ A.Nodes ++ B.Nodes, ∃ m,
      S.GetNode (OnStructMessage S U cB (OnStructMessage S U cA g msgA).Graph msgB).Graph n.ID
        = some m ∧
      S.GetNode (OnStructMessage S U cA (OnStructMessage S U cB g msgB).Graph msgA).Graph n.ID
        = some m) ∧
    (∀ n ∈ A.Nodes, S.GetNode g n.ID = none →
      A.Nodes.find? (fun x => decide (x.ID = n.ID)) = some n →
      S.GetNode (OnStructMessage S U cB (OnStructMessage S U cA g msgA).Graph msgB).Graph n.ID
        = some n ∧
      S.GetNode (OnStructMessage S U cA (OnStructMessage S U cB g msgB).Graph msgA).Graph n.ID
        = some n) ∧
    (∀ n ∈ B.Nodes, S.GetNode g n.ID = none →
      B.Nodes.find? (fun x => decide (x.ID = n.ID)) = some n →
      S.GetNode (OnStructMessage S U cB (OnStructMessage S U cA g msgA).Graph msgB).Graph n.ID
        = some n ∧
      S.GetNode (OnStructMessage S U cA (OnStructMessage S U cB g msgB).Graph msgA).Graph n.ID
        = some n) ∧
    (∀ (gr : G) (id : Identifier) (m : Node), S.GetNode gr id = some m → m.Origin = b →
      S.GetNode (OnStructMessage S U cB gr msgD).Graph id = some m ∧
      S.GetNode (OnDisconnected S cA gr).Graph id = some m) ∧
    (∀ n ∈ B.Nodes, S.GetNode g n.ID = none →
      B.Nodes.find? (fun x => decide (x.ID = n.ID)) = some n →
      S.GetNode (OnDisconnected S cA
        (OnStructMessage S U cB (OnStructMessage S U cA g msgA).Graph msgB).Graph).Graph n.ID
          = some n ∧
      S.GetNode (OnStructMessage S U cB
        (OnStructMessage S U cA (OnStructMessage S U cB g msgB).Graph msgA).Graph msgD).Graph n.ID
          = some n) ∧
    (∀ n ∈ A.Nodes, S.GetNode g n.ID = none →
      S.GetNode (OnDisconnected S cA
        (OnStructMessage S U cB (OnStructMessage S U cA g msgA).Graph msgB).Graph).Graph n.ID
          = none) := by
  have hAB := OnStructMessage_sync_sync_lookup S hA U cA cB g msgA msgB tA tB A B htA hUA htB hUB
  have hBA := OnStructMessage_sync_sync_lookup S hA U cB cA g msgB msgA tB tA B A htB hUB htA hUA
  have hsame : ∀ id,
      S.GetNode (OnStructMessage S U cB (OnStructMessage S U cA g msgA).Graph msgB).Graph id
        = S.GetNode (OnStructMessage S U cA (OnStructMessage S U cB g msgB).Graph msgA).Graph
            id := by
    intro id
    rw [hAB, hBA]
    cases S.GetNode g id with
    | some m => rfl
    | none =>
      simp only []
      cases hfa : A.Nodes.find? (fun x => decide (x.ID = id)) with
      | none => cases B.Nodes.find? (fun x => decide (x.ID = id)) <;> rfl
      | some x =>
        cases hfb : B.Nodes.find? (fun x => decide (x.ID = id)) with
        | none => rfl
        | some y =>
          have hx : x.ID = id := by simpa using List.find?_some hfa
          have hy : y.ID = id := by simpa using List.find?_some hfb
          exact absurd (hx.trans hy.symm)
            (hdisj x (List.mem_of_find?_eq_some hfa) y (List.mem_of_find?_eq_some hfb))
  have hpres : ∀ n ∈ A.Nodes ++ B.Nodes, ∃ m,
      S.GetNode (OnStructMessage S U cB (OnStructMessage S U cA g msgA).Graph msgB).Graph n.ID
        = some m := by
    intro n hn
    rw [hAB]
    cases S.GetNode g n.ID with
    | some m => exact ⟨m, rfl⟩
    | none =>
      simp only []
      rcases List.mem_append.1 hn with h | h
      · obtain ⟨x, hx, _⟩ := find?_isSome_of_mem_id Node.ID A.Nodes n h
        rw [hx]
        exact ⟨x, rfl⟩
      · obtain ⟨x, hx, _⟩ := find?_isSome_of_mem_id Node.ID B.Nodes n h
        rw [hx]
        cases A.Nodes.find? (fun x => decide (x.ID = n.ID)) with
        | none => exact ⟨x, rfl⟩
        | some y => exact ⟨y, rfl⟩
  have hfreshA : ∀ n ∈ A.Nodes, S.GetNode g n.ID = none →
      A.Nodes.find? (fun x => decide (x.ID = n.ID)) = some n →
      S.GetNode (OnStructMessage S U cB (OnStructMessage S U cA g msgA).Graph msgB).Graph n.ID
        = some n := by
    intro n _ hg hfirst
    rw [hAB, hg]
    simp only [hfirst]
  have hfreshB : ∀ n ∈ B.Nodes, S.GetNode g n.ID = none →
      B.Nodes.find? (fun x => decide (x.ID = n.ID)) = some n →
      S.GetNode (OnStructMessage S U cB (OnStructMessage S U cA g msgA).Graph msgB).Graph n.ID
        = some n := by
    intro n hn hg hfirst
    rw [hAB, hg]
    simp only [find?_id_none_of_disjoint A.Nodes B.Nodes n hn hdisj, hfirst]
  have hdel : ∀ (gr : G) (id : Identifier) (m : Node), S.GetNode gr id = some m →
      m.Origin = b →
      S.GetNode (OnStructMessage S U cB gr msgD).Graph id = some m ∧
      S.GetNode (OnDisconnected S cA gr).Graph id = some m := by
    intro gr id m hm hmb
    have hne : m.Origin ≠ a := fun h => hab (h.symm.trans hmb)
    rw [(OnStructMessage_originDeleted S U cB gr msgD a hUD).1, (OnDisconnected_eq S cA gr).1,
      hcA]
    exact ⟨hO.getNode_delOrigin_ne gr a id m hm hne, hO.getNode_delOrigin_ne gr a id m hm hne⟩
  refine ⟨hAB, hsame, ?_, ?_, ?_, hdel, ?_, ?_⟩
  · intro n hn
    obtain ⟨m, hm⟩ := hpres n hn
    exact ⟨m, hm, by rw [← hsame]; exact hm⟩
  · intro n hn hg hfirst
    exact ⟨hfreshA n hn hg hfirst, by rw [← hsame]; exact hfreshA n hn hg hfirst⟩
  · intro n hn hg hfirst
    exact ⟨hfreshB n hn hg hfirst, by rw [← hsame]; exact hfreshB n hn hg hfirst⟩
  · intro n hn hg hfirst
    have hstored := hfreshB n hn hg hfirst
    exact ⟨(hdel _ n.ID n hstored (hoB n hn)).2,
      (hdel _ n.ID n (by rw [← hsame]; exact hstored) (hoB n hn)).1⟩
  · intro n hn hg
    obtain ⟨x, hx, _⟩ := find?_isSome_of_mem_id Node.ID A.Nodes n hn
    rw [(OnDisconnected_eq S cA _).1, hcA]
    apply hO.getNode_delOrigin
    intro m hm
    rw [hAB, hg] at hm
    simp only [hx, Option.some.injEq] at hm
    rw [← hm]
    exact hoA x (List.mem_of_find?_eq_some hx)

/-- Witness of C9 on the store of the specification, with the origins
`"agent.h1"` and `"agentB.h2"`: the batch of `"agent.h1"` carries `n1` and
`n2`, the batch of `"agentB.h2"` carries `m1`.  After both batches all three
are stored; after the disconnect of `"agent.h1"` only `m1` is. -/
theorem C9_cross_origin_isolation_witness :
    AddContract specStore ∧ OriginContract specStore ∧ "agent.h1" ≠ "agentB.h2" ∧
    specOrigin agentH1.GetServiceType agentH1.GetRemoteHost = "agent.h1" ∧
    (∀ n ∈ [n1, n2], n.Origin = "agent.h1") ∧ (∀ n ∈ [m1], n.Origin = "agentB.h2") ∧
    (∀ x ∈ [n1, n2], ∀ y ∈ [m1], x.ID ≠ y.ID) ∧
    (OnStructMessage specStore exampleUnmarshal ⟨"h2", "agentB"⟩
      (OnStructMessage specStore exampleUnmarshal agentH1 Graph.empty
        (some (.SyncMsgType, .sync ⟨[n1, n2], []⟩))).Graph
      (some (.SyncMsgType, .sync ⟨[m1], []⟩))).Graph.nodes = [m1, n2, n1] ∧
    (OnDisconnected specStore agentH1
      (OnStructMessage specStore exampleUnmarshal ⟨"h2", "agentB"⟩
        (OnStructMessage specStore exampleUnmarshal agentH1 Graph.empty
          (some (.SyncMsgType, .sync ⟨[n1, n2], []⟩))).Graph
        (some (.SyncMsgType, .sync ⟨[m1], []⟩))).Graph).Graph.nodes = [m1] ∧
    (∀ id, specStore.GetNode (OnStructMessage specStore exampleUnmarshal ⟨"h2", "agentB"⟩
        (OnStructMessage specStore exampleUnmarshal agentH1 Graph.empty
          (some (.SyncMsgType, .sync ⟨[n1, n2], []⟩))).Graph
        (some (.SyncMsgType, .sync ⟨[m1], []⟩))).Graph id
      = specStore.GetNode (OnStructMessage specStore exampleUnmarshal agentH1
        (OnStructMessage specStore exampleUnmarshal ⟨"h2", "agentB"⟩ Graph.empty
          (some (.SyncMsgType, .sync ⟨[m1], []⟩))).Graph
        (some (.SyncMsgType, .sync ⟨[n1, n2], []⟩))).Graph id) :=
  ⟨specStore_addContract, specStore_originContract, by decide, by decide, by decide, by decide,
    by decide, by decide, by decide,
    (C9_cross_origin_isolation specStore specStore_addContract specStore_originContract
      exampleUnmarshal agentH1 ⟨"h2", "agentB"⟩ Graph.empty
      (some (.SyncMsgType, .sync ⟨[n1, n2], []⟩)) (some (.SyncMsgType, .sync ⟨[m1], []⟩))
      (some (.OriginGraphDeletedMsgType, .str "agent.h1")) .SyncMsgType .SyncMsgType
      ⟨[n1, n2], []⟩ ⟨[m1], []⟩ "agent.h1" "agentB.h2" (by decide) (Or.inl rfl) rfl
      (Or.inl rfl) rfl rfl (by decide) (by decide) (by decide) (by decide)).2.1⟩

/-- Counterexample to C9 as stated, twice, with the origins `"agent.h1"` and
`"agentB.h2"` and the batches `A` of `"agent.h1"` and `B = [m1]` of
`"agentB.h2"`, whose ID sets are disjoint.  First, the graph stores a node
under the ID `"n1"` and `A = [n1]`: after both batches, in either order, the
node `n1` of batch `A` is not in the graph, which still holds the node stored
before.  Second, from the empty graph, `A = [n1, n1b]` carries the ID `"n1"`
twice: after both batches the node `n1b` of batch `A` is not in the graph. -/
theorem C9_batch_node_absent_counterexample :
    ("agent.h1" ≠ "agentB.h2" ∧
     (∀ n ∈ [n1], n.Origin = "agent.h1") ∧ (∀ n ∈ [m1], n.Origin = "agentB.h2") ∧
     (∀ x ∈ [n1], ∀ y ∈ [m1], x.ID ≠ y.ID) ∧
     n1 ∉ (OnStructMessage specStore exampleUnmarshal ⟨"h2", "agentB"⟩
        (OnStructMessage specStore exampleUnmarshal agentH1 graphForeign
          (some (.SyncMsgType, .sync ⟨[n1], []⟩))).Graph
        (some (.SyncMsgType, .sync ⟨[m1], []⟩))).Graph.nodes ∧
     n1 ∉ (OnStructMessage specStore exampleUnmarshal agentH1
        (OnStructMessage specStore exampleUnmarshal ⟨"h2", "agentB"⟩ graphForeign
          (some (.SyncMsgType, .sync ⟨[m1], []⟩))).Graph
        (some (.SyncMsgType, .sync ⟨[n1], []⟩))).Graph.nodes ∧
     specStore.GetNode (OnStructMessage specStore exampleUnmarshal ⟨"h2", "agentB"⟩
        (OnStructMessage specStore exampleUnmarshal agentH1 graphForeign
          (some (.SyncMsgType, .sync ⟨[n1], []⟩))).Graph
        (some (.SyncMsgType, .sync ⟨[m1], []⟩))).Graph "n1" = some n1foreign) ∧
    ((∀ n ∈ [n1, n1b], n.Origin = "agent.h1") ∧
     (∀ x ∈ [n1, n1b], ∀ y ∈ [m1], x.ID ≠ y.ID) ∧
     n1b ∉ (OnStructMessage specStore exampleUnmarshal ⟨"h2", "agentB"⟩
        (OnStructMessage specStore exampleUnmarshal agentH1 Graph.empty
          (some (.SyncMsgType, .sync ⟨[n1, n1b], []⟩))).Graph
        (some (.SyncMsgType, .sync ⟨[m1], []⟩))).Graph.nodes ∧
     n1b ∉ (OnStructMessage specStore exampleUnmarshal agentH1
        (OnStructMessage specStore exampleUnmarshal ⟨"h2", "agentB"⟩ Graph.empty
          (some (.SyncMsgType, .sync ⟨[m1], []⟩))).Graph
        (some (.SyncMsgType, .sync ⟨[n1, n1b], []⟩))).Graph.nodes) :=
  ⟨⟨by decide, by decide, by decide, by decide, by decide, by decide, by decide⟩,
    ⟨by decide, by decide, by decide, by decide⟩⟩

/-! ## Claims settled on the graph store of the specification -/

/-- C2: on the store of the specification a singular `NodeAdded` message for
a node whose ID is stored is a no-op: the graph is unchanged (the stored node
stays, one node is stored under the ID), the one call `NodeAdded` returns no
error, nothing is logged and the handler returns.  The same for a singular
`EdgeAdded` message for an edge whose ID is stored. -/
theorem C2_added_existing_is_noop {M : Type} (U : M → Except Error (MsgType × Obj))
    (c : Speaker) (g : Graph) (msg : M) :
    (∀ n m : Node, U msg = .ok (.NodeAddedMsgType, .node n) → specStore.GetNode g n.ID = some m →
      (OnStructMessage specStore U c g msg).Graph = g ∧
      (OnStructMessage specStore U c g msg).calls = [.Lock, .NodeAdded n none, .Unlock] ∧
      (OnStructMessage specStore U c g msg).log = [] ∧
      (OnStructMessage specStore U c g msg).panicked = false ∧
      specStore.GetNode (OnStructMessage specStore U c g msg).Graph n.ID = some m ∧
      ((OnStructMessage specStore U c g msg).Graph.nodes.map Node.ID).count n.ID = 1) ∧
    (∀ e d : Edge, U msg = .ok (.EdgeAddedMsgType, .edge e) → specStore.GetEdge g e.ID = some d →
      (OnStructMessage specStore U c g msg).Graph = g ∧
      (OnStructMessage specStore U c g msg).calls = [.Lock, .EdgeAdded e none, .Unlock] ∧
      (OnStructMessage specStore U c g msg).log = [] ∧
      (OnStructMessage specStore U c g msg).panicked = false ∧
      specStore.GetEdge (OnStructMessage specStore U c g msg).Graph e.ID = some d ∧
      ((OnStructMessage specStore U c g msg).Graph.edges.map Edge.ID).count e.ID = 1) := by
  constructor
  · intro n m hU hm
    have hadd : specStore.NodeAdded g n = (g, none) := Graph.nodeAdded_present g n m hm
    have hg : (OnStructMessage specStore U c g msg).Graph = g := by
      simp [OnStructMessage, hU, dispatch, hadd]
    refine ⟨hg, ?_, ?_, ?_, by rw [hg]; exact hm, by rw [hg]; exact Graph.count_node_id g _ m hm⟩
      <;> simp [OnStructMessage, hU, dispatch, hadd, logError]
  · intro e d hU hd
    have hadd : specStore.EdgeAdded g e = (g, none) := Graph.edgeAdded_present g e d hd
    have hg : (OnStructMessage specStore U c g msg).Graph = g := by
      simp [OnStructMessage, hU, dispatch, hadd]
    refine ⟨hg, ?_, ?_, ?_, by rw [hg]; exact hd, by rw [hg]; exact Graph.count_edge_id g _ d hd⟩
      <;> simp [OnStructMessage, hU, dispatch, hadd, logError]

/-- Witness of C2: the graph holds `n1` with metadata `{a: 1}`; a `NodeAdded`
message carrying `n1` with metadata `{a: 2}` changes nothing and logs
nothing. -/
theorem C2_added_existing_is_noop_witness :
    exampleUnmarshal (some (.NodeAddedMsgType, .node n1b)) = .ok (.NodeAddedMsgType, .node n1b) ∧
    specStore.GetNode graphN1 n1b.ID = some n1 ∧
    (OnStructMessage specStore exampleUnmarshal agentH1 graphN1
      (some (.NodeAddedMsgType, .node n1b))).Graph = graphN1 ∧
    (OnStructMessage specStore exampleUnmarshal agentH1 graphN1
      (some (.NodeAddedMsgType, .node n1b))).log = [] :=
  have h := (C2_added_existing_is_noop exampleUnmarshal agentH1 graphN1
    (some (.NodeAddedMsgType, .node n1b))).1 n1b n1 rfl (by decide)
  ⟨rfl, by decide, h.1, h.2.2.1⟩

/-- C8: on the store of the specification, deleting an origin twice in a row
gives the same graph as deleting it once, whether the second deletion is a
second `OriginGraphDeleted(o)` message or the disconnect of a connection whose
origin is `o`; the second deletion returns, its calls return no error and it
writes no error line. -/
theorem C8_origin_deletion_idempotent {M : Type} (U : M → Except Error (MsgType × Obj))
    (c1 c2 c3 : Speaker) (g : Graph) (msg : M) (o : String)
    (hU : U msg = .ok (.OriginGraphDeletedMsgType, .str o))
    (hc : specOrigin c3.GetServiceType c3.GetRemoteHost = o) :
    (OnStructMessage specStore U c2 (OnStructMessage specStore U c1 g msg).Graph msg).Graph
        = (OnStructMessage specStore U c1 g msg).Graph ∧
    (OnStructMessage specStore U c2 (OnStructMessage specStore U c1 g msg).Graph msg).calls
        = [.Lock, .DelOriginGraph o, .Unlock] ∧
    (OnStructMessage specStore U c2
        (OnStructMessage specStore U c1 g msg).Graph msg).log.filter LogEntry.isError = [] ∧
    (OnStructMessage specStore U c2
        (OnStructMessage specStore U c1 g msg).Graph msg).panicked = false ∧
    (OnDisconnected specStore c3 (OnStructMessage specStore U c1 g msg).Graph).Graph
        = (OnStructMessage specStore U c1 g msg).Graph ∧
    (OnDisconnected specStore c3 (OnStructMessage specStore U c1 g msg).Graph).calls
        = [.Lock, .DelOriginGraph o, .Unlock] ∧
    (OnDisconnected specStore c3
        (OnStructMessage specStore U c1 g msg).Graph).log.filter LogEntry.isError = [] ∧
    (OnDisconnected specStore c3 (OnStructMessage specStore U c1 g msg).Graph).panicked
        = false := by
  have h1 := OnStructMessage_originDeleted specStore U c1 g msg o hU
  have h2 := OnStructMessage_originDeleted specStore U c2
    (OnStructMessage specStore U c1 g msg).Graph msg o hU
  have h3 := OnDisconnected_eq specStore c3 (OnStructMessage specStore U c1 g msg).Graph
  rw [hc] at h3
  have hidem : specStore.DelOriginGraph (specStore.DelOriginGraph g o) o
      = specStore.DelOriginGraph g o := Graph.delOriginGraph_idem g o
  refine ⟨?_, h2.2.1, ?_, h2.2.2.2, ?_, h3.2.1, ?_, h3.2.2.2⟩
  · rw [h2.1, h1.1, hidem]
  · rw [h2.2.2.1]; rfl
  · rw [h3.1, h1.1, hidem]
  · rw [h3.2.2.1]; rfl

/-- Witness of C8: the origin `"agent.h1"` is deleted from the graph that
holds `n1` and `e1`, by a message and then again by a message and by the
disconnect of the agent `"agent"` on host `"h1"`. -/
theorem C8_origin_deletion_idempotent_witness :
    exampleUnmarshal (some (.OriginGraphDeletedMsgType, .str "agent.h1"))
      = .ok (.OriginGraphDeletedMsgType, .str "agent.h1") ∧
    specOrigin agentH1.GetServiceType agentH1.GetRemoteHost = "agent.h1" ∧
    graphN1E1.nodes = [n1] ∧ graphN1E1.edges = [e1] ∧
    (OnStructMessage specStore exampleUnmarshal agentH1 graphN1E1
      (some (.OriginGraphDeletedMsgType, .str "agent.h1"))).Graph = Graph.empty ∧
    (OnDisconnected specStore agentH1
      (OnStructMessage specStore exampleUnmarshal agentH1 graphN1E1
        (some (.OriginGraphDeletedMsgType, .str "agent.h1"))).Graph).Graph
      = (OnStructMessage specStore exampleUnmarshal agentH1 graphN1E1
        (some (.OriginGraphDeletedMsgType, .str "agent.h1"))).Graph :=
  ⟨rfl, by decide, by decide, by decide,
    Graph.ext_lists _ _ (by decide) (by decide),
    (C8_origin_deletion_idempotent exampleUnmarshal agentH1 agentH1 agentH1 graphN1E1
      (some (.OriginGraphDeletedMsgType, .str "agent.h1")) "agent.h1" rfl (by decide)).2.2.2.2.1⟩

/-- C7: a node with ID `i` was added by a `Sync` or `SyncReply` batch; a
following `NodeUpdated` message whose payload `n` has ID `i` succeeds without
a log line, `GetNode(i)` then returns the stored node with the metadata (and
revision) of `n`, one node is stored under `i`, no node is added or removed,
every other ID returns the node it returned before, and the edges are
unchanged. -/
theorem C7_update_after_sync {M : Type} (U : M → Except Error (MsgType × Obj))
    (c1 c2 : Speaker) (g : Graph) (msgS msgU : M) (t : MsgType) (b : SyncMsg) (n : Node)
    (ht : t = .SyncMsgType ∨ t = .SyncReplyMsgType) (hUS : U msgS = .ok (t, .sync b))
    (hUU : U msgU = .ok (.NodeUpdatedMsgType, .node n))
    (hmem : ∃ x ∈ b.Nodes, x.ID = n.ID) :
    (∃ old m : Node,
      specStore.GetNode (OnStructMessage specStore U c1 g msgS).Graph n.ID = some old ∧
      specStore.GetNode (OnStructMessage specStore U c2
        (OnStructMessage specStore U c1 g msgS).Graph msgU).Graph n.ID = some m ∧
      m.Metadata = n.Metadata ∧ m.Revision = n.Revision ∧ m.ID = n.ID ∧
      m.Origin = old.Origin) ∧
    ((OnStructMessage specStore U c2
        (OnStructMessage specStore U c1 g msgS).Graph msgU).Graph.nodes.map Node.ID).count n.ID
      = 1 ∧
    (OnStructMessage specStore U c2
        (OnStructMessage specStore U c1 g msgS).Graph msgU).Graph.nodes.map Node.ID
      = (OnStructMessage specStore U c1 g msgS).Graph.nodes.map Node.ID ∧
    (∀ id, id ≠ n.ID →
      specStore.GetNode (OnStructMessage specStore U c2
        (OnStructMessage specStore U c1 g msgS).Graph msgU).Graph id
      = specStore.GetNode (OnStructMessage specStore U c1 g msgS).Graph id) ∧
    (OnStructMessage specStore U c2
        (OnStructMessage specStore U c1 g msgS).Graph msgU).Graph.edges
      = (OnStructMessage specStore U c1 g msgS).Graph.edges ∧
    (OnStructMessage specStore U c2 (OnStructMessage specStore U c1 g msgS).Graph msgU).calls
      = [.Lock, .NodeUpdated n none, .Unlock] ∧
    (OnStructMessage specStore U c2 (OnStructMessage specStore U c1 g msgS).Graph msgU).log
      = [] ∧
    (OnStructMessage specStore U c2
        (OnStructMessage specStore U c1 g msgS).Graph msgU).panicked = false := by
  obtain ⟨x, hx, hxid⟩ := hmem
  obtain ⟨old, hold⟩ :=
    (sync_ids_stored U c1 g msgS t b ht hUS) x hx
  rw [hxid] at hold
  generalize (OnStructMessage specStore U c1 g msgS).Graph = g1 at hold ⊢
  have hup := Graph.nodeUpdated_present g1 n old hold
  have hget := Graph.getNode_nodeUpdated g1 n old hold
  have hg : (OnStructMessage specStore U c2 g1 msgU).Graph = (g1.NodeUpdated n).1 := by
    simp [OnStructMessage, hUU, dispatch, specStore]
  have hnew : specStore.GetNode (g1.NodeUpdated n).1 n.ID
      = some (Graph.updateNode n old) := by
    show (g1.NodeUpdated n).1.GetNode n.ID = _
    rw [hget]
    show Option.map _ (specStore.GetNode g1 n.ID) = _
    rw [hold]
    rfl
  have hoid : old.ID = n.ID := ((Graph.getNode_eq_some_iff g1 n.ID old).1 hold).2
  have herr : (specStore.NodeUpdated g1 n).2 = none := hup.2.2
  refine ⟨⟨old, Graph.updateNode n old, hold, by rw [hg]; exact hnew, ?_, ?_, ?_, ?_⟩,
    ?_, ?_, ?_, ?_, ?_, ?_, ?_⟩
  · simp [Graph.updateNode, hoid]
  · simp [Graph.updateNode, hoid]
  · simp [Graph.updateNode, hoid]
  · simp [Graph.updateNode, hoid]
  · rw [hg]
    exact Graph.count_node_id _ n.ID _ hnew
  · rw [hg, hup.1, List.map_map]
    apply List.map_congr_left
    intro a _
    exact Graph.updateNode_id n a
  · intro id hid
    rw [hg]
    show (g1.NodeUpdated n).1.GetNode id = g1.GetNode id
    rw [hget]
    cases hc : g1.GetNode id with
    | none => rfl
    | some y =>
      have hy : y.ID = id := ((Graph.getNode_eq_some_iff g1 id y).1 hc).2
      have hne : ¬ y.ID = n.ID := fun h => hid (hy.symm.trans h)
      simp [Graph.updateNode, hne]
  · rw [hg, hup.2.1]
  · simp [OnStructMessage, hUU, dispatch, herr]
  · simp [OnStructMessage, hUU, dispatch, herr, logError]
  · simp [OnStructMessage, hUU, dispatch]

/-- Witness of C7: a `Sync` adds `n1` with metadata `{a: 1}` to the empty
graph; `NodeUpdated` with metadata `{a: 2}` follows; the graph then holds the
one node `n1` with metadata `{a: 2}`. -/
theorem C7_update_after_sync_witness :
    exampleUnmarshal (some (.SyncMsgType, .sync ⟨[n1], []⟩))
      = .ok (.SyncMsgType, .sync ⟨[n1], []⟩) ∧
    exampleUnmarshal (some (.NodeUpdatedMsgType, .node n1b))
      = .ok (.NodeUpdatedMsgType, .node n1b) ∧
    (∃ x ∈ [n1], x.ID = n1b.ID) ∧
    (OnStructMessage specStore exampleUnmarshal agentH1
      (OnStructMessage specStore exampleUnmarshal agentH1 Graph.empty
        (some (.SyncMsgType, .sync ⟨[n1], []⟩))).Graph
      (some (.NodeUpdatedMsgType, .node n1b))).Graph.nodes = [n1b] ∧
    ((OnStructMessage specStore exampleUnmarshal agentH1
      (OnStructMessage specStore exampleUnmarshal agentH1 Graph.empty
        (some (.SyncMsgType, .sync ⟨[n1], []⟩))).Graph
      (some (.NodeUpdatedMsgType, .node n1b))).Graph.nodes.map Node.ID).count n1b.ID = 1 :=
  ⟨rfl, rfl, by decide, by decide,
    (C7_update_after_sync exampleUnmarshal agentH1 agentH1 Graph.empty
      (some (.SyncMsgType, .sync ⟨[n1], []⟩)) (some (.NodeUpdatedMsgType, .node n1b))
      .SyncMsgType ⟨[n1], []⟩ n1b (Or.inl rfl) rfl rfl (by decide)).2.1⟩

/-- C5 (amended): on the store of the specification, for every graph
(reachable from the empty graph or not) and every origin `o`, the deletion of
`o` by an `OriginGraphDeleted(o)` message and by the disconnect of a
connection whose origin is `o` give the same graph; in it no node and no edge
of origin `o` remains, no remaining edge has as parent or child the ID of a
node the deletion removed, and if before the deletion the parent and child of
every edge were IDs of stored nodes then so they are after it. -/
theorem C5_origin_deletion_complete {M : Type} (U : M → Except Error (MsgType × Obj))
    (c1 c2 : Speaker) (g : Graph) (msg : M) (o : String)
    (hU : U msg = .ok (.OriginGraphDeletedMsgType, .str o))
    (hc : specOrigin c2.GetServiceType c2.GetRemoteHost = o) :
    (OnDisconnected specStore c2 g).Graph = (OnStructMessage specStore U c1 g msg).Graph ∧
    (∀ n ∈ (OnStructMessage specStore U c1 g msg).Graph.nodes, n.Origin ≠ o) ∧
    (∀ e ∈ (OnStructMessage specStore U c1 g msg).Graph.edges, e.Origin ≠ o) ∧
    (∀ e ∈ (OnStructMessage specStore U c1 g msg).Graph.edges, ∀ n ∈ g.nodes, n.Origin = o →
      e.Parent ≠ n.ID ∧ e.Child ≠ n.ID) ∧
    ((∀ e ∈ g.edges, e.Parent ∈ g.nodes.map Node.ID ∧ e.Child ∈ g.nodes.map Node.ID) →
      ∀ e ∈ (OnStructMessage specStore U c1 g msg).Graph.edges,
        e.Parent ∈ (OnStructMessage specStore U c1 g msg).Graph.nodes.map Node.ID ∧
        e.Child ∈ (OnStructMessage specStore U c1 g msg).Graph.nodes.map Node.ID) := by
  have h1 : (OnStructMessage specStore U c1 g msg).Graph = g.DelOriginGraph o :=
    (OnStructMessage_originDeleted specStore U c1 g msg o hU).1
  have h2 : (OnDisconnected specStore c2 g).Graph = g.DelOriginGraph o := by
    rw [(OnDisconnected_eq specStore c2 g).1, hc]
    rfl
  rw [h1, h2]
  have hkeep : ∀ e ∈ (g.DelOriginGraph o).edges, ∀ n ∈ g.nodes, n.Origin = o →
      e.Parent ≠ n.ID ∧ e.Child ≠ n.ID := by
    intro e he n hn hno
    have h := (Graph.mem_delOriginGraph_edges g o e).1 he
    constructor
    · intro hp
      have : g.removedBy o e.Parent = true :=
        (Graph.removedBy_eq_true_iff g o e.Parent).2 ⟨n, hn, hp.symm, hno⟩
      rw [h.2.2.1] at this
      exact absurd this (by simp)
    · intro hp
      have : g.removedBy o e.Child = true :=
        (Graph.removedBy_eq_true_iff g o e.Child).2 ⟨n, hn, hp.symm, hno⟩
      rw [h.2.2.2] at this
      exact absurd this (by simp)
  refine ⟨rfl, ?_, ?_, hkeep, ?_⟩
  · intro n hn
    exact ((Graph.mem_delOriginGraph_nodes g o n).1 hn).2
  · intro e he
    exact ((Graph.mem_delOriginGraph_edges g o e).1 he).2.1
  · intro hwf e he
    have hmem := ((Graph.mem_delOriginGraph_edges g o e).1 he).1
    obtain ⟨hp, hch⟩ := hwf e hmem
    obtain ⟨p, hpm, hpid⟩ := List.mem_map.1 hp
    obtain ⟨q, hqm, hqid⟩ := List.mem_map.1 hch
    have hpo : p.Origin ≠ o := fun h => (hkeep e he p hpm h).1 hpid.symm
    have hqo : q.Origin ≠ o := fun h => (hkeep e he q hqm h).2 hqid.symm
    exact ⟨List.mem_map.2 ⟨p, (Graph.mem_delOriginGraph_nodes g o p).2 ⟨hpm, hpo⟩, hpid⟩,
      List.mem_map.2 ⟨q, (Graph.mem_delOriginGraph_nodes g o q).2 ⟨hqm, hqo⟩, hqid⟩⟩

/-- Witness of C5: the graph holds `n1`, `n2` (origin `"agent.h1"`), `m1`
(origin `"agentB.h2"`), the edge `e1` from `n1` to `n2` and an edge of origin
`"agentB.h2"` from `m1` to `n1`; the deletion of `"agent.h1"` leaves `m1`
alone, without any edge. -/
theorem C5_origin_deletion_complete_witness :
    exampleUnmarshal (some (.OriginGraphDeletedMsgType, .str "agent.h1"))
      = .ok (.OriginGraphDeletedMsgType, .str "agent.h1") ∧
    specOrigin agentH1.GetServiceType agentH1.GetRemoteHost = "agent.h1" ∧
    graphCross.nodes = [m1, n2, n1] ∧ graphCross.edges = [e2, e1] ∧
    (OnStructMessage specStore exampleUnmarshal agentH1 graphCross
      (some (.OriginGraphDeletedMsgType, .str "agent.h1"))).Graph.nodes = [m1] ∧
    (OnStructMessage specStore exampleUnmarshal agentH1 graphCross
      (some (.OriginGraphDeletedMsgType, .str "agent.h1"))).Graph.edges = [] ∧
    (OnDisconnected specStore agentH1 graphCross).Graph
      = (OnStructMessage specStore exampleUnmarshal agentH1 graphCross
        (some (.OriginGraphDeletedMsgType, .str "agent.h1"))).Graph :=
  ⟨rfl, by decide, by decide, by decide, by decide, by decide,
    (C5_origin_deletion_complete exampleUnmarshal agentH1 agentH1 graphCross
      (some (.OriginGraphDeletedMsgType, .str "agent.h1")) "agent.h1" rfl (by decide)).1⟩

/-- Counterexample to C5 as stated: from the empty graph, a singular
`EdgeAdded` message stores the edge `e1`, whose parent `"n1"` and child `"n2"`
are not stored (the store adds an edge whose ID is not stored, as it adds a
node); then `OriginGraphDeleted("agentB.h2")` is handled.  The graph is
reachable, and after the deletion the edge `e1` remains with a parent and a
child that are not IDs of nodes of the graph. -/
theorem C5_dangling_edge_counterexample :
    (run specStore exampleUnmarshal Graph.empty
      [.message agentH1 (some (.EdgeAddedMsgType, .edge e1)),
       .message agentH1 (some (.OriginGraphDeletedMsgType, .str "agentB.h2"))]).Graph.edges
      = [e1] ∧
    (run specStore exampleUnmarshal Graph.empty
      [.message agentH1 (some (.EdgeAddedMsgType, .edge e1)),
       .message agentH1 (some (.OriginGraphDeletedMsgType, .str "agentB.h2"))]).Graph.nodes
      = [] ∧
    (run specStore exampleUnmarshal Graph.empty
      [.message agentH1 (some (.EdgeAddedMsgType, .edge e1)),
       .message agentH1 (some (.OriginGraphDeletedMsgType, .str "agentB.h2"))]).calls
      = [.Lock, .EdgeAdded e1 none, .Unlock, .Lock, .DelOriginGraph "agentB.h2", .Unlock] ∧
    ¬ (∀ e ∈ (run specStore exampleUnmarshal Graph.empty
        [.message agentH1 (some (.EdgeAddedMsgType, .edge e1)),
         .message agentH1 (some (.OriginGraphDeletedMsgType, .str "agentB.h2"))]).Graph.edges,
      e.Parent ∈ (run specStore exampleUnmarshal Graph.empty
        [.message agentH1 (some (.EdgeAddedMsgType, .edge e1)),
         .message agentH1
           (some (.OriginGraphDeletedMsgType, .str "agentB.h2"))]).Graph.nodes.map Node.ID ∧
      e.Child ∈ (run specStore exampleUnmarshal Graph.empty
        [.message agentH1 (some (.EdgeAddedMsgType, .edge e1)),
         .message agentH1
           (some (.OriginGraphDeletedMsgType, .str "agentB.h2"))]).Graph.nodes.map Node.ID) := by
  refine ⟨by decide, by decide, by decide, ?_⟩
  decide

end Hub
